import Mathlib

/-!
Verification development for the STS happens-before race-detection core
(`sts/happensbefore/hb_race_detector.py` and `sts/happensbefore/hb_logger.py`).

The Python sources are shallowly embedded as executable Lean definitions:

* `RD` models `hb_race_detector.py` (class `RaceDetector`).  The commutativity
  checker `hb_comute_check.CommutativityChecker` is an external oracle per the
  specification ("interface only"); it is passed in as a boolean function.
  The `networkx` reachability/ancestor queries are modelled by an executable
  breadth-first saturation (`reachList`) that is proved equivalent to the
  reflexive-transitive closure of the edge relation.
* `HB` models `hb_logger.py` (class `HappensBeforeLogger`), including the
  per-switch handle assembly, the controller-instrumentation matching and the
  trace emission.  Logging calls (`self.log.info`, prints) have no modelled
  effect.  Exceptions (Python `assert` failures, `TypeError`) are modelled by
  an `ok : Bool` flag returned next to the mutated-so-far state, since
  `handle_no_exceptions` catches them while keeping prior mutations.
-/

namespace HBAux

/-- Association-list lookup with decidable key equality (models Python
`dict.__getitem__` / `in`). -/
def alook {α β : Type} [DecidableEq α] : List (α × β) → α → Option β
  | [], _ => none
  | (a, b) :: t, k => if a = k then some b else alook t k

/-- Association-list update that overwrites the first binding of the key and
otherwise appends, keeping Python dict insertion-order semantics. -/
def aupd {α β : Type} [DecidableEq α] : List (α × β) → α → β → List (α × β)
  | [], k, v => [(k, v)]
  | (a, b) :: t, k, v => if a = k then (k, v) :: t else (a, b) :: aupd t k v

/-- Association-list erasure of a key (models Python `del d[k]`). -/
def aer {α β : Type} [DecidableEq α] (l : List (α × β)) (k : α) : List (α × β) :=
  l.filter (fun p => decide (¬ p.1 = k))

/-- Lookup with a default value (models `defaultdict` access for reading). -/
def agetD {α β : Type} [DecidableEq α] (l : List (α × β)) (k : α) (d : β) : β :=
  (alook l k).getD d

/-- Remove the first occurrence of a value (models Python `list.remove`). -/
def removeFirst {α : Type} [DecidableEq α] : α → List α → List α
  | _, [] => []
  | x, a :: t => if a = x then t else a :: removeFirst x t

/-- Add an element to a list if absent (models Python `set.add`; only
membership in the set is ever observed). -/
def addIfAbsent {α : Type} [DecidableEq α] (x : α) (l : List α) : List α :=
  if x ∈ l then l else l ++ [x]

/-- All unordered pairs of a list in iteration order
(models `itertools.combinations(l, 2)`). -/
def combinations2 {α : Type} : List α → List (α × α)
  | [] => []
  | x :: xs => xs.map (fun y => (x, y)) ++ combinations2 xs

/-- The nested-loop product (models `for a in l1: for b in l2:`). -/
def pairProd {α β : Type} (l1 : List α) (l2 : List β) : List (α × β) :=
  (l1.map (fun a => l2.map (fun b => (a, b)))).flatten

end HBAux

namespace Reach

open HBAux

/-- Edges leaving the visited set (one saturation layer of breadth-first
search over an edge list). -/
def succsFrom (edges : List (Nat × Nat)) (vs : List Nat) : List (Nat × Nat) :=
  edges.filter (fun e => decide (e.1 ∈ vs) && !(decide (e.2 ∈ vs)))

/-- One saturation step: visited set plus the targets of newly crossed
edges. -/
def reachStep (edges : List (Nat × Nat)) (vs : List Nat) : List Nat :=
  vs ++ (succsFrom edges vs).map Prod.snd

/-- Iterated saturation. -/
def reachIter (edges : List (Nat × Nat)) : Nat → List Nat → List Nat
  | 0, vs => vs
  | n + 1, vs => reachIter edges n (reachStep edges vs)

/-- All nodes reachable from `s` (with enough fuel to saturate).  This is the
executable model of `networkx.has_path`/descendant queries. -/
def reachList (edges : List (Nat × Nat)) (s : Nat) : List Nat :=
  reachIter edges (edges.length + 1) [s]

/-- Executable model of `nx.has_path(g, s, t)` (reflexive). -/
def hasPath (edges : List (Nat × Nat)) (s t : Nat) : Bool :=
  decide (t ∈ reachList edges s)

/-- The mathematical path relation: reflexive-transitive closure of the edge
relation.  `hasPath` is proved equivalent to it below. -/
def Reaches (edges : List (Nat × Nat)) (a b : Nat) : Prop :=
  Relation.ReflTransGen (fun x y => (x, y) ∈ edges) a b

/-- Edge-reversal, used to model `nx.ancestors`. -/
def swapEdges (edges : List (Nat × Nat)) : List (Nat × Nat) :=
  edges.map (fun p => (p.2, p.1))

/-- A visited set closed under following edges. -/
def Sat (edges : List (Nat × Nat)) (vs : List Nat) : Prop :=
  ∀ p ∈ edges, p.1 ∈ vs → p.2 ∈ vs

end Reach

namespace RD

open HBAux Reach

/-- A flow-table operation record as seen by the race detector: an element of
some handle event's `operations` list (`hb_race_detector.read_ops` inspects
`type`, `flow_table` and `flow_mod`; the payloads are opaque here). -/
structure Op where
  type : String
  eid : Nat
  flow_table : Nat
  flow_mod : Nat
deriving DecidableEq

/-- An event of the happens-before graph as used by the race detector:
`eid`, `dpid`, and (for handle events) an `operations` list.  `operations =
none` models an event without the `operations` attribute
(`hasattr(i, 'operations')` is false). -/
structure Event where
  eid : Nat
  dpid : Nat
  operations : Option (List Op)
deriving DecidableEq

/-- The happens-before graph handed to `RaceDetector`: the directed edge list
of `graph.g` (by `eid`) and the event list `graph.events`. -/
structure HBGraph where
  edges : List (Nat × Nat)
  events : List Event

/-- `RaceDetector.is_reachable(source, target)`:
`nx.has_path(self.graph.g, source.eid, target.eid)`. -/
def is_reachable (g : HBGraph) (source target : Event) : Bool :=
  hasPath g.edges source.eid target.eid

/-- `RaceDetector.is_ordered(event, other)`. -/
def is_ordered (g : HBGraph) (event other : Event) : Bool :=
  let older := if event.eid < other.eid then event else other
  let newer := if event.eid > other.eid then event else other
  is_reachable g newer older || is_reachable g older newer

/-- The inclusive ancestor set of `RaceDetector.has_common_ancestor`:
`nx.ancestors(g, n) ∪ {n}`, i.e. every node with a path to `n`. -/
def ancestorsWithSelf (edges : List (Nat × Nat)) (n : Nat) : List Nat :=
  reachList (swapEdges edges) n

/-- `RaceDetector.has_common_ancestor(event, other)`: the two inclusive
ancestor sets are not disjoint. -/
def has_common_ancestor (g : HBGraph) (event other : Event) : Bool :=
  (ancestorsWithSelf g.edges event.eid).any
    (fun x => decide (x ∈ ancestorsWithSelf g.edges other.eid))

/-- The `Race` namedtuple. -/
structure Race where
  rtype : String
  i_event : Event
  i_op : Op
  k_event : Event
  k_op : Op
deriving DecidableEq

/-- The mutable fields of a `RaceDetector` instance (the graph, the
commutativity checker and `filter_rw` are passed separately). -/
structure DetectorState where
  read_operations : List (Event × Op)
  write_operations : List (Event × Op)
  races_harmful : List Race
  races_commute : List Race
  racing_events : List Event
  racing_events_harmful : List Event
  total_operations : Nat
  total_harmful : Nat
  total_commute : Nat
  total_filtered : Nat
  total_races : Nat
deriving DecidableEq

/-- The `__init__` field values of `RaceDetector`. -/
def initDetector : DetectorState :=
  ⟨[], [], [], [], [], [], 0, 0, 0, 0, 0⟩

/-- The write half of `RaceDetector.read_ops`: all `(event, op)` pairs with
`op.type == 'TraceSwitchFlowTableWrite'`, in event/operation order. -/
def writeOperationsOf (g : HBGraph) : List (Event × Op) :=
  (g.events.map (fun i =>
    match i.operations with
    | none => []
    | some ops =>
      (ops.filter (fun k => decide (k.type = "TraceSwitchFlowTableWrite"))).map
        (fun k => (i, k)))).flatten

/-- The read half of `RaceDetector.read_ops`: all `(event, op)` pairs with
`op.type == 'TraceSwitchFlowTableRead'`. -/
def readOperationsOf (g : HBGraph) : List (Event × Op) :=
  (g.events.map (fun i =>
    match i.operations with
    | none => []
    | some ops =>
      (ops.filter (fun k => decide (k.type = "TraceSwitchFlowTableRead"))).map
        (fun k => (i, k)))).flatten

/-- A candidate pair: `((i_event, i_op), (k_event, k_op))`. -/
abbrev Cand := (Event × Op) × (Event × Op)

/-- The common filter of `detect_ww_races` and `detect_rw_races`:
`i_event != k_event and (event is None or event == i_event or event ==
k_event) and i_event.dpid == k_event.dpid and not is_ordered(...)`. -/
def raceCond (g : HBGraph) (event : Option Event) (p : Cand) : Bool :=
  decide (p.1.1 ≠ p.2.1) &&
  decide (event = none ∨ event = some p.1.1 ∨ event = some p.2.1) &&
  decide (p.1.1.dpid = p.2.1.dpid) &&
  !(is_ordered g p.1.1 p.2.1)

/-- Build the `Race` namedtuple from a candidate pair. -/
def mkRace (rtype : String) (p : Cand) : Race :=
  ⟨rtype, p.1.1, p.1.2, p.2.1, p.2.2⟩

/-- The loop body of `detect_ww_races` for a single candidate pair (the
`verbose` progress printing has no state effect and is omitted). -/
def wwStep (g : HBGraph) (event : Option Event)
    (ww : Event → Op → Event → Op → Bool)
    (st : DetectorState) (p : Cand) : DetectorState :=
  if raceCond g event p then
    if ww p.1.1 p.1.2 p.2.1 p.2.2 then
      { st with races_commute := st.races_commute ++ [mkRace "w/w" p],
                racing_events :=
                  addIfAbsent p.2.1 (addIfAbsent p.1.1 st.racing_events) }
    else
      { st with races_harmful := st.races_harmful ++ [mkRace "w/w" p],
                racing_events_harmful :=
                  addIfAbsent p.2.1 (addIfAbsent p.1.1 st.racing_events_harmful),
                racing_events :=
                  addIfAbsent p.2.1 (addIfAbsent p.1.1 st.racing_events) }
  else st

/-- `RaceDetector.detect_ww_races(event)`. -/
def detect_ww_races (g : HBGraph) (event : Option Event)
    (ww : Event → Op → Event → Op → Bool) (st : DetectorState) : DetectorState :=
  (combinations2 st.write_operations).foldl (wwStep g event ww) st

/-- The loop body of `detect_rw_races` for a single candidate pair. -/
def rwStep (g : HBGraph) (event : Option Event)
    (rw : Event → Op → Event → Op → Bool) (filter_rw : Bool)
    (st : DetectorState) (p : Cand) : DetectorState :=
  if raceCond g event p then
    if filter_rw && !(has_common_ancestor g p.1.1 p.2.1) then
      { st with total_filtered := st.total_filtered + 1 }
    else
      if rw p.1.1 p.1.2 p.2.1 p.2.2 then
        { st with races_commute := st.races_commute ++ [mkRace "r/w" p],
                  racing_events :=
                    addIfAbsent p.2.1 (addIfAbsent p.1.1 st.racing_events) }
      else
        { st with races_harmful := st.races_harmful ++ [mkRace "r/w" p],
                  racing_events_harmful :=
                    addIfAbsent p.2.1
                      (addIfAbsent p.1.1 st.racing_events_harmful),
                  racing_events :=
                    addIfAbsent p.2.1 (addIfAbsent p.1.1 st.racing_events) }
  else st

/-- `RaceDetector.detect_rw_races(event)`. -/
def detect_rw_races (g : HBGraph) (event : Option Event)
    (rw : Event → Op → Event → Op → Bool) (filter_rw : Bool)
    (st : DetectorState) : DetectorState :=
  (pairProd st.read_operations st.write_operations).foldl
    (rwStep g event rw filter_rw) st

/-- `RaceDetector.detect_races(event)`: `read_ops()`, reset of the race
collections, the two detection passes and the final totals. -/
def detect_races (g : HBGraph) (event : Option Event)
    (ww rw : Event → Op → Event → Op → Bool) (filter_rw : Bool)
    (st : DetectorState) : DetectorState :=
  let st1 := { st with read_operations := readOperationsOf g,
                       write_operations := writeOperationsOf g }
  let st2 := { st1 with races_harmful := [], races_commute := [],
                        racing_events := [], racing_events_harmful := [],
                        total_filtered := 0 }
  let st3 := detect_ww_races g event ww st2
  let st4 := detect_rw_races g event rw filter_rw st3
  { st4 with
      total_operations := st4.write_operations.length + st4.read_operations.length,
      total_harmful := st4.races_harmful.length,
      total_commute := st4.races_commute.length,
      total_races := st4.races_harmful.length + st4.races_commute.length }

end RD

namespace HB

open HBAux

/-- Modelled from the spec: an OpenFlow message as tracked by the logger.
`hb_logger.py` distinguishes the Python object identity (`oid`, used by the
`ObjectRegistry`) from the base64-encoded content (`content`, the result of
`base64_encode(msg)` used for controller matching). -/
structure Msg where
  oid : Nat
  content : Nat
deriving DecidableEq

/-- Modelled from the spec: `sts.happensbefore.hb_tags.ObjectRegistry`
(`hb_tags.py` is not part of the provided sources).  Per spec section 4.1 it
maps object identities to stable tags and allocates strictly fresh tags. -/
structure ObjectRegistry where
  tags : List (Nat × Nat)
  next : Nat
deriving DecidableEq

/-- Modelled from the spec: `ObjectRegistry.get_tag(obj)` returns the
existing tag or allocates a fresh one. -/
def getTag (r : ObjectRegistry) (oid : Nat) : Nat × ObjectRegistry :=
  match alook r.tags oid with
  | some t => (t, r)
  | none => (r.next, ⟨r.tags ++ [(oid, r.next)], r.next + 1⟩)

/-- Modelled from the spec: `ObjectRegistry.new_tag(obj)` assigns a fresh tag,
detaching any prior tag of the object. -/
def newTag (r : ObjectRegistry) (oid : Nat) : Nat × ObjectRegistry :=
  (r.next, ⟨aer r.tags oid ++ [(oid, r.next)], r.next + 1⟩)

/-- Modelled from the spec: `ObjectRegistry.remove_obj(obj)`. -/
def removeObj (r : ObjectRegistry) (oid : Nat) : ObjectRegistry :=
  ⟨aer r.tags oid, r.next⟩

/-- Modelled from the spec: `ObjectRegistry.generate_unused_tag()` allocates a
tag bound to no object. -/
def generateUnusedTag (r : ObjectRegistry) : Nat × ObjectRegistry :=
  (r.next, ⟨r.tags, r.next + 1⟩)

/-- Modelled from the spec: `ObjectRegistry.replace_obj(tag, obj)` rebinds the
tag to the new object identity, keeping the tag. -/
def replaceObj (r : ObjectRegistry) (tag oid : Nat) : ObjectRegistry :=
  ⟨(r.tags.filter (fun p => decide (¬ p.2 = tag))).filter
      (fun p => decide (¬ p.1 = oid)) ++ [(oid, tag)], r.next⟩

/-- Which handle class a started switch event is an instance of
(`isinstance(..., HbPacketHandle)` / `HbMessageHandle`). -/
inductive HandleKind where
  | packetHandle
  | messageHandle
deriving DecidableEq

/-- A flow-table / buffer operation event attached to a handle's `operations`
list.  The `type` string is the trace-event class name used by the race
detector. -/
structure TraceOp where
  type : String
  dpid : Nat
  packet : Nat
deriving DecidableEq

/-- Modelled from the spec: a started `HbPacketHandle` / `HbMessageHandle`
event under assembly (`hb_events.py` is not part of the provided sources; the
fields follow spec section 3).  Unused fields of a kind hold dummy values. -/
structure Handle where
  kind : HandleKind
  dpid : Nat
  pid_in : Option Nat
  mid_in : Nat
  packet : Nat
  msg : Msg
  msg_type : Nat
  in_port : Nat
  pid_out : List Nat
  mid_out : List Nat
  operations : List TraceOp
deriving DecidableEq

/-- An event record emitted to the trace (one JSON line of `hb.json`). -/
inductive Emitted where
  | handle (h : Handle)
  | packetSend (pid_in pid_out dpid packet out_port : Nat)
  | messageSend (mid_in mid_out msg_type dpid : Nat) (msg : Msg)
  | controllerHandle (mid_in mid_out : Nat)
  | controllerSend (mid_in mid_out : Nat)
deriving DecidableEq

/-- The dpid an emitted event carries (0 for the synthetic controller
events, which never pass through the per-switch queues). -/
def Emitted.dpid : Emitted → Nat
  | .handle h => h.dpid
  | .packetSend _ _ d _ _ => d
  | .messageSend _ _ _ d _ => d
  | .controllerHandle _ _ => 0
  | .controllerSend _ _ => 0

/-- The mutable state of a `HappensBeforeLogger` (the trace file and the
in-memory graph are both modelled by the `trace` list of emitted events). -/
structure LoggerState where
  pids : ObjectRegistry
  mids : ObjectRegistry
  started_switch_event : List (Nat × Handle)
  new_switch_events : List (Nat × List Emitted)
  pending_packet_update : List (Nat × Nat)
  unmatched_HbMessageSend : List (Nat × List (Nat × Nat))
  unmatched_HbMessageHandle : List (Nat × List (Nat × Nat))
  controller_msgin_to_mid_out : List ((Nat × Nat) × Nat)
  unmatched_lines_controller_msgout : List (Nat × Nat × Nat × Nat)
  swid_to_dpid : List (Nat × Nat)
  dpid_to_swid : List (Nat × Nat)
  trace : List Emitted
deriving DecidableEq

/-- The `__init__` state of the logger. -/
def initLogger : LoggerState :=
  ⟨⟨[], 0⟩, ⟨[], 0⟩, [], [], [], [], [], [], [], [], [], []⟩

/-- `HappensBeforeLogger.start_switch_event(dpid, event)`.  The queued events
of `new_switch_events[dpid]` are flushed before the `assert event.dpid not in
self.started_switch_event`; a failed assert (already-started handle) keeps
the flush (Python keeps mutations made before an exception). -/
def start_switch_event (st : LoggerState) (dpid : Nat) (event : Handle) :
    LoggerState × Bool :=
  let st1 := { st with trace := st.trace ++ agetD st.new_switch_events dpid [],
                       new_switch_events := aer st.new_switch_events dpid }
  if (alook st1.started_switch_event event.dpid).isSome then (st1, false)
  else
    let started1 := aupd st1.started_switch_event event.dpid event
    ({ st1 with started_switch_event := started1 }, true)

/-- `HappensBeforeLogger.finish_switch_event(dpid)`: emit the started handle,
then flush its queued successor events in FIFO order. -/
def finish_switch_event (st : LoggerState) (dpid : Nat) : LoggerState × Bool :=
  match alook st.started_switch_event dpid with
  | none => (st, false)
  | some h =>
    let st1 := { st with trace := st.trace ++ [Emitted.handle h],
                         started_switch_event := aer st.started_switch_event dpid }
    ({ st1 with trace := st1.trace ++ agetD st1.new_switch_events dpid [],
                new_switch_events := aer st1.new_switch_events dpid }, true)

/-- `HappensBeforeLogger.is_switch_event_started(dpid)`. -/
def is_switch_event_started (st : LoggerState) (dpid : Nat) : Bool :=
  (alook st.started_switch_event dpid).isSome

/-- `HappensBeforeLogger.add_operation_to_switch_event(event)`: append to the
started handle's `operations`, or log and ignore if none is started. -/
def add_operation_to_switch_event (st : LoggerState) (event : TraceOp) :
    LoggerState :=
  match alook st.started_switch_event event.dpid with
  | some h =>
    let h1 := { h with operations := h.operations ++ [event] }
    { st with started_switch_event := aupd st.started_switch_event event.dpid h1 }
  | none => st

/-- `HappensBeforeLogger.add_successor_to_switch_event(event, mid_in,
pid_in)`: link the started handle and queue the event, or emit it directly if
no handle is started. -/
def add_successor_to_switch_event (st : LoggerState) (event : Emitted)
    (mid_in pid_in : Option Nat) : LoggerState :=
  match alook st.started_switch_event event.dpid with
  | some h =>
    let h1 := match mid_in with
      | some m => { h with mid_out := h.mid_out ++ [m] }
      | none => h
    let h2 := match pid_in with
      | some p => { h1 with pid_out := h1.pid_out ++ [p] }
      | none => h1
    let q1 := agetD st.new_switch_events event.dpid [] ++ [event]
    { st with started_switch_event := aupd st.started_switch_event event.dpid h2,
              new_switch_events := aupd st.new_switch_events event.dpid q1 }
  | none => { st with trace := st.trace ++ [event] }

/-- First tuple of an unmatched queue whose base64 message matches, together
with the queue with that tuple removed (the iteration plus `list.remove` of
`find_controller_packet_in` / `_out`). -/
def findFirstMatch (b64 : Nat) : List (Nat × Nat) →
    Option (Nat × List (Nat × Nat))
  | [] => none
  | (m, b) :: t =>
    if b = b64 then some (m, t)
    else match findFirstMatch b64 t with
      | some (m1, t1) => some (m1, (m, b) :: t1)
      | none => none

/-- The swid-discovery scan of `find_controller_packet_in` / `_out`: walk the
per-dpid unmatched queues in insertion order, skip dpids already bound to a
swid, and take the first matching tuple.  Returns the matched mid, the
discovered dpid and the updated queue table. -/
def scanUnmatched (dpid_to_swid : List (Nat × Nat)) (b64 : Nat) :
    List (Nat × List (Nat × Nat)) →
    Option (Nat × Nat × List (Nat × List (Nat × Nat)))
  | [] => none
  | (d, lst) :: t =>
    if (alook dpid_to_swid d).isSome then
      match scanUnmatched dpid_to_swid b64 t with
      | some (m, dk, t1) => some (m, dk, (d, lst) :: t1)
      | none => none
    else
      match findFirstMatch b64 lst with
      | some (m, lst1) => some (m, d, (d, lst1) :: t)
      | none =>
        match scanUnmatched dpid_to_swid b64 t with
        | some (m, dk, t1) => some (m, dk, (d, lst) :: t1)
        | none => none

/-- `HappensBeforeLogger.find_controller_packet_in(swid, b64msg)`.  The third
component is false when the internal
`assert self.dpid_to_swid[dpid] == swid` fails. -/
def find_controller_packet_in (st : LoggerState) (swid b64 : Nat) :
    Option Nat × LoggerState × Bool :=
  match alook st.controller_msgin_to_mid_out (swid, b64) with
  | some m => (some m, st, true)
  | none =>
    match alook st.swid_to_dpid swid with
    | some dpid =>
      if alook st.dpid_to_swid dpid = some swid then
        match findFirstMatch b64 (agetD st.unmatched_HbMessageSend dpid []) with
        | some (m, lst1) =>
          let ums1 := aupd st.unmatched_HbMessageSend dpid lst1
          (some m, { st with unmatched_HbMessageSend := ums1 }, true)
        | none => (none, st, true)
      else (none, st, false)
    | none =>
      match scanUnmatched st.dpid_to_swid b64 st.unmatched_HbMessageSend with
      | some (m, dk, um) =>
        (some m, { st with swid_to_dpid := aupd st.swid_to_dpid swid dk,
                           dpid_to_swid := aupd st.dpid_to_swid dk swid,
                           unmatched_HbMessageSend := um }, true)
      | none => (none, st, true)

/-- `HappensBeforeLogger.find_controller_packet_out(swid, b64msg)`
(symmetric, over the unmatched `HbMessageHandle` queues). -/
def find_controller_packet_out (st : LoggerState) (swid b64 : Nat) :
    Option Nat × LoggerState × Bool :=
  match alook st.swid_to_dpid swid with
  | some dpid =>
    if alook st.dpid_to_swid dpid = some swid then
      match findFirstMatch b64 (agetD st.unmatched_HbMessageHandle dpid []) with
      | some (m, lst1) =>
        let umh1 := aupd st.unmatched_HbMessageHandle dpid lst1
        (some m, { st with unmatched_HbMessageHandle := umh1 }, true)
      | none => (none, st, true)
    else (none, st, false)
  | none =>
    match scanUnmatched st.dpid_to_swid b64 st.unmatched_HbMessageHandle with
    | some (m, dk, um) =>
      (some m, { st with swid_to_dpid := aupd st.swid_to_dpid swid dk,
                         dpid_to_swid := aupd st.dpid_to_swid dk swid,
                         unmatched_HbMessageHandle := um }, true)
    | none => (none, st, true)

/-- `HappensBeforeLogger.add_controller_hb_edge(mid_out, mid_in)`: emit a
fresh `HbControllerHandle(mid_out, T)` directly followed by
`HbControllerSend(T, mid_in)` with `T = self.mids.generate_unused_tag()`. -/
def add_controller_hb_edge (st : LoggerState) (mid_out mid_in : Nat) :
    LoggerState :=
  let (t, mids1) := generateUnusedTag st.mids
  { st with mids := mids1,
            trace := st.trace ++ [Emitted.controllerHandle mid_out t,
                                  Emitted.controllerSend t mid_in] }

/-- `HappensBeforeLogger.controller_ack_in(swid, b64msg)`: resolve the
outbound mid or die on `assert False`; on success record the
`(swid, b64msg) -> mid_out` mapping (overwriting). -/
def controller_ack_in (st : LoggerState) (swid b64 : Nat) :
    LoggerState × Bool :=
  match find_controller_packet_in st swid b64 with
  | (_, st1, false) => (st1, false)
  | (none, st1, true) => (st1, false)
  | (some m, st1, true) =>
    let cm1 := aupd st1.controller_msgin_to_mid_out (swid, b64) m
    ({ st1 with controller_msgin_to_mid_out := cm1 }, true)

/-- `HappensBeforeLogger.controller_ack_out(in_swid, in_b64msg, out_swid,
out_b64msg)`: resolve the inbound mid (fatal if missing), then either emit
the controller edge or buffer the line for a later `HbMessageHandle`. -/
def controller_ack_out (st : LoggerState) (in_swid in_b64 out_swid out_b64 : Nat) :
    LoggerState × Bool :=
  match find_controller_packet_in st in_swid in_b64 with
  | (_, st1, false) => (st1, false)
  | (none, st1, true) => (st1, false)
  | (some mid_out, st1, true) =>
    match find_controller_packet_out st1 out_swid out_b64 with
    | (_, st2, false) => (st2, false)
    | (none, st2, true) =>
      let lines1 := st2.unmatched_lines_controller_msgout ++
        [(in_swid, in_b64, out_swid, out_b64)]
      ({ st2 with unmatched_lines_controller_msgout := lines1 }, true)
    | (some mid_in, st2, true) =>
      (add_controller_hb_edge st2 mid_out mid_in, true)

/-- The last buffered `MessageOut` line whose `out_b64msg` matches (both scan
loops of `match_unmatched_controller_msgout` run to completion without a
`break`, so the last match wins). -/
def lastMatchingLine (out_b64 : Nat) (lines : List (Nat × Nat × Nat × Nat)) :
    Option (Nat × Nat × Nat × Nat) :=
  (lines.filter (fun l => decide (l.2.2.2 = out_b64))).getLast?

/-- The swid bindings performed inside the first scan loop of
`match_unmatched_controller_msgout`: for every matching line in order,
`dpid_to_swid[dpid] = lout_swid; swid_to_dpid[lout_swid] = dpid`. -/
def bindMatchingLines (dpid : Nat) (lines : List (Nat × Nat × Nat × Nat))
    (maps : List (Nat × Nat) × List (Nat × Nat)) :
    List (Nat × Nat) × List (Nat × Nat) :=
  lines.foldl
    (fun m l => (aupd m.1 dpid l.2.2.1, aupd m.2 l.2.2.1 dpid)) maps

/-- `HappensBeforeLogger.match_unmatched_controller_msgout(mid_in, dpid,
out_b64msg)`.  Returns `(is_matched, state, ok)`.  When a buffered line
matches, the source removes it and then calls
`self.find_controller_packet_in(self, lin_swid, lin_b64msg)` — passing `self`
as an extra positional argument, which raises `TypeError` before the callee
body runs; the removal and any swid bindings persist, no edge is emitted and
`True` is never returned.  An inconsistent `dpid_to_swid`/`swid_to_dpid` pair
fails the initial assert. -/
def match_unmatched_controller_msgout (st : LoggerState)
    (_mid_in dpid out_b64 : Nat) : Bool × LoggerState × Bool :=
  match alook st.dpid_to_swid dpid with
  | some swid =>
    if alook st.swid_to_dpid swid = some dpid then
      match lastMatchingLine out_b64 st.unmatched_lines_controller_msgout with
      | none => (false, st, true)
      | some l =>
        let lines1 := removeFirst l st.unmatched_lines_controller_msgout
        (false, { st with unmatched_lines_controller_msgout := lines1 }, false)
    else (false, st, false)
  | none =>
    match lastMatchingLine out_b64 st.unmatched_lines_controller_msgout with
    | none => (false, st, true)
    | some l =>
      let mls :=
        st.unmatched_lines_controller_msgout.filter
          (fun x => decide (x.2.2.2 = out_b64))
      let maps := bindMatchingLines dpid mls
        (st.dpid_to_swid, st.swid_to_dpid)
      let lines1 := removeFirst l st.unmatched_lines_controller_msgout
      (false, { st with dpid_to_swid := maps.1, swid_to_dpid := maps.2,
                        unmatched_lines_controller_msgout := lines1 }, false)

end HB

namespace HB

open HBAux

/-- `HappensBeforeLogger.handle_switch_ph_begin(event)`. -/
def handle_switch_ph_begin (st : LoggerState) (dpid packet in_port : Nat) :
    LoggerState × Bool :=
  let (pid_in, pids1) := getTag st.pids packet
  let begin_event : Handle :=
    ⟨.packetHandle, dpid, some pid_in, 0, packet, ⟨0, 0⟩, 0, in_port, [], [], []⟩
  start_switch_event { st with pids := pids1 } dpid begin_event

/-- `HappensBeforeLogger.handle_switch_ph_end(event)`. -/
def handle_switch_ph_end (st : LoggerState) (dpid : Nat) : LoggerState × Bool :=
  finish_switch_event st dpid

/-- `HappensBeforeLogger.handle_switch_mh_begin(event)`: start the
`HbMessageHandle` and attempt the controller-instrumentation match; when the
match fails benignly, remember the `(mid_in, b64msg)` tuple as an unmatched
inbound message.  An exception from either phase propagates (keeping the
state mutated so far). -/
def handle_switch_mh_begin (st : LoggerState) (dpid : Nat) (msg : Msg)
    (msg_type : Nat) : LoggerState × Bool :=
  let (mid_in, mids1) := getTag st.mids msg.oid
  let begin_event : Handle :=
    ⟨.messageHandle, dpid, none, mid_in, 0, msg, msg_type, 0, [], [], []⟩
  match start_switch_event { st with mids := mids1 } dpid begin_event with
  | (st1, false) => (st1, false)
  | (st1, true) =>
    match match_unmatched_controller_msgout st1 mid_in dpid msg.content with
    | (_, st2, false) => (st2, false)
    | (true, st2, true) => (st2, true)
    | (false, st2, true) =>
      let q1 := agetD st2.unmatched_HbMessageHandle dpid [] ++ [(mid_in, msg.content)]
      let umh1 := aupd st2.unmatched_HbMessageHandle dpid q1
      ({ st2 with unmatched_HbMessageHandle := umh1 }, true)

/-- `HappensBeforeLogger.handle_switch_mh_end(event)`. -/
def handle_switch_mh_end (st : LoggerState) (dpid : Nat) : LoggerState × Bool :=
  finish_switch_event st dpid

/-- `HappensBeforeLogger.handle_switch_ms(event)`: re-tag the message twice,
drop it from the registry, queue the `HbMessageSend` successor and record the
`(mid_out, b64msg)` tuple as unmatched outbound. -/
def handle_switch_ms (st : LoggerState) (dpid : Nat) (msg : Msg)
    (msg_type : Nat) : LoggerState × Bool :=
  let (mid_in, mids1) := newTag st.mids msg.oid
  let (mid_out, mids2) := newTag mids1 msg.oid
  let mids3 := removeObj mids2 msg.oid
  let new_event := Emitted.messageSend mid_in mid_out msg_type dpid msg
  let st1 := add_successor_to_switch_event { st with mids := mids3 } new_event
    (some mid_in) none
  let q1 := agetD st1.unmatched_HbMessageSend dpid [] ++ [(mid_out, msg.content)]
  let ums1 := aupd st1.unmatched_HbMessageSend dpid q1
  ({ st1 with unmatched_HbMessageSend := ums1 }, true)

/-- `HappensBeforeLogger.handle_switch_ps(event)`. -/
def handle_switch_ps (st : LoggerState) (dpid packet out_port : Nat) :
    LoggerState × Bool :=
  let (pid_in, pids1) := newTag st.pids packet
  let (pid_out, pids2) := newTag pids1 packet
  let new_event := Emitted.packetSend pid_in pid_out dpid packet out_port
  (add_successor_to_switch_event { st with pids := pids2 } new_event
    none (some pid_in), true)

/-- `HappensBeforeLogger.handle_switch_table_read(event)`. -/
def handle_switch_table_read (st : LoggerState) (dpid : Nat) :
    LoggerState × Bool :=
  (add_operation_to_switch_event st ⟨"TraceSwitchFlowTableRead", dpid, 0⟩, true)

/-- `HappensBeforeLogger.handle_switch_table_write(event)`. -/
def handle_switch_table_write (st : LoggerState) (dpid : Nat) :
    LoggerState × Bool :=
  (add_operation_to_switch_event st ⟨"TraceSwitchFlowTableWrite", dpid, 0⟩, true)

/-- `HappensBeforeLogger.handle_switch_table_entry_expiry(event)`. -/
def handle_switch_table_entry_expiry (st : LoggerState) (dpid : Nat) :
    LoggerState × Bool :=
  (add_operation_to_switch_event st ⟨"TraceSwitchFlowTableEntryExpiry", dpid, 0⟩,
   true)

/-- `HappensBeforeLogger.handle_switch_buf_put(event)`: when a handle is
started it must be an `HbPacketHandle` whose `pid_in` still equals the
packet's registry tag (both `assert`ed; a failure keeps prior mutations and
skips the rest); then a fresh `pid_out` is generated and appended, and in
every non-raising path the operation is appended via
`add_operation_to_switch_event`. -/
def handle_switch_buf_put (st : LoggerState) (dpid packet : Nat) :
    LoggerState × Bool :=
  let op : TraceOp := ⟨"TraceSwitchBufferPut", dpid, packet⟩
  match alook st.started_switch_event dpid with
  | some h =>
    if h.kind = .packetHandle then
      let (t, pids1) := getTag st.pids packet
      let st1 := { st with pids := pids1 }
      if some t = h.pid_in then
        let (pid_out, pids2) := newTag pids1 packet
        let h1 := { h with pid_out := h.pid_out ++ [pid_out] }
        let started1 := aupd st1.started_switch_event dpid h1
        let st2 := { st1 with pids := pids2, started_switch_event := started1 }
        (add_operation_to_switch_event st2 op, true)
      else (st1, false)
    else (st, false)
  | none => (add_operation_to_switch_event st op, true)

/-- `HappensBeforeLogger.handle_switch_buf_get(event)`: the started handle
must be an `HbMessageHandle` (`assert`ed); its `pid_in` is overwritten with
the buffered packet's tag, then the operation is appended. -/
def handle_switch_buf_get (st : LoggerState) (dpid packet : Nat) :
    LoggerState × Bool :=
  let op : TraceOp := ⟨"TraceSwitchBufferGet", dpid, packet⟩
  match alook st.started_switch_event dpid with
  | some h =>
    if h.kind = .messageHandle then
      let (pid_in, pids1) := getTag st.pids packet
      let h1 := { h with pid_in := some pid_in }
      let started1 := aupd st.started_switch_event dpid h1
      let st1 := { st with pids := pids1, started_switch_event := started1 }
      (add_operation_to_switch_event st1 op, true)
    else (st, false)
  | none => (add_operation_to_switch_event st op, true)

/-- `HappensBeforeLogger.handle_switch_pu_begin(event)`. -/
def handle_switch_pu_begin (st : LoggerState) (dpid packet : Nat) :
    LoggerState × Bool :=
  let (tag, pids1) := getTag st.pids packet
  ({ st with pids := pids1,
             pending_packet_update := aupd st.pending_packet_update dpid tag },
   true)

/-- `HappensBeforeLogger.handle_switch_pu_end(event)`: the pending tag must
exist (`assert`ed), then the registry entry is swapped to the new packet
object. -/
def handle_switch_pu_end (st : LoggerState) (dpid packet : Nat) :
    LoggerState × Bool :=
  match alook st.pending_packet_update dpid with
  | none => (st, false)
  | some tag => ({ st with pids := replaceObj st.pids tag packet }, true)

/-- One input consumed by the logger: a simulator trace event dispatched by
`handle_no_exceptions`, or a matched controller instrumentation line
dispatched by `_handle_line_match`.  (The host-side events are symmetric to
the switch side and not needed by any claim.) -/
inductive TraceInput where
  | switchPhBegin (dpid packet in_port : Nat)
  | switchPhEnd (dpid : Nat)
  | switchMhBegin (dpid : Nat) (msg : Msg) (msg_type : Nat)
  | switchMhEnd (dpid : Nat)
  | switchMs (dpid : Nat) (msg : Msg) (msg_type : Nat)
  | switchPs (dpid packet out_port : Nat)
  | switchTableRead (dpid : Nat)
  | switchTableWrite (dpid : Nat)
  | switchTableEntryExpiry (dpid : Nat)
  | switchBufPut (dpid packet : Nat)
  | switchBufGet (dpid packet : Nat)
  | switchPuBegin (dpid packet : Nat)
  | switchPuEnd (dpid packet : Nat)
  | controllerMsgIn (swid b64msg : Nat)
  | controllerMsgOut (in_swid in_b64msg out_swid out_b64msg : Nat)
deriving DecidableEq

/-- Dispatch of one input to its handler.  The second component is false when
the handler raised (the exception is caught by `handle_no_exceptions` for
simulator events and is fatal to the line-match listener for controller
lines); the state keeps all mutations made before the raise. -/
def stepInput (st : LoggerState) : TraceInput → LoggerState × Bool
  | .switchPhBegin dpid packet in_port => handle_switch_ph_begin st dpid packet in_port
  | .switchPhEnd dpid => handle_switch_ph_end st dpid
  | .switchMhBegin dpid msg msg_type => handle_switch_mh_begin st dpid msg msg_type
  | .switchMhEnd dpid => handle_switch_mh_end st dpid
  | .switchMs dpid msg msg_type => handle_switch_ms st dpid msg msg_type
  | .switchPs dpid packet out_port => handle_switch_ps st dpid packet out_port
  | .switchTableRead dpid => handle_switch_table_read st dpid
  | .switchTableWrite dpid => handle_switch_table_write st dpid
  | .switchTableEntryExpiry dpid => handle_switch_table_entry_expiry st dpid
  | .switchBufPut dpid packet => handle_switch_buf_put st dpid packet
  | .switchBufGet dpid packet => handle_switch_buf_get st dpid packet
  | .switchPuBegin dpid packet => handle_switch_pu_begin st dpid packet
  | .switchPuEnd dpid packet => handle_switch_pu_end st dpid packet
  | .controllerMsgIn swid b64 => controller_ack_in st swid b64
  | .controllerMsgOut isw ib64 osw ob64 => controller_ack_out st isw ib64 osw ob64

/-- Run the logger over an input stream from a given state (exceptions are
caught; the run continues from the mutated state). -/
def runFrom (st : LoggerState) (inputs : List TraceInput) : LoggerState :=
  inputs.foldl (fun s i => (stepInput s i).1) st

/-- Run the logger over an input stream from the `__init__` state. -/
def runLogger (inputs : List TraceInput) : LoggerState :=
  runFrom initLogger inputs

/-- Number of `TraceSwitchBufferPut` operations attached to a handle. -/
def countBufPut (ops : List TraceOp) : Nat :=
  ops.countP (fun op => decide (op.type = "TraceSwitchBufferPut"))

/-- The per-handle invariant behind claim C8: a packet handle never carries
more `BufferPut` operations than `pid_out` entries. -/
def HandleOk (h : Handle) : Prop :=
  h.kind = .packetHandle → countBufPut h.operations ≤ h.pid_out.length

/-- `HandleOk` lifted to an emitted record. -/
def EmittedOk : Emitted → Prop
  | .handle h => HandleOk h
  | _ => True

/-- The state-wide invariant behind claim C8: every handle in the trace,
started or queued satisfies `HandleOk`. -/
def StateOk (st : LoggerState) : Prop :=
  (∀ e ∈ st.trace, EmittedOk e) ∧
  (∀ p ∈ st.started_switch_event, HandleOk (p : Nat × Handle).2) ∧
  (∀ p ∈ st.new_switch_events, ∀ e ∈ (p : Nat × List Emitted).2, EmittedOk e)

/-- The swid/dpid map consistency maintained by the logger (needed for claim
C4): any established `swid -> dpid` binding has the matching reverse
binding. -/
def MapsConsistent (st : LoggerState) : Prop :=
  ∀ s d, alook st.swid_to_dpid s = some d → alook st.dpid_to_swid d = some s

end HB

namespace HB

/-- An input to the per-switch assembly helpers of the logger (the layer of
`start_switch_event` / `finish_switch_event` /
`add_successor_to_switch_event` / `add_operation_to_switch_event`, with the
event argument already built by the calling handler). -/
inductive SwInput where
  | start (ev : Handle)
  | finish (dpid : Nat)
  | succ (ev : Emitted) (mid_in pid_in : Option Nat)
  | oper (op : TraceOp)
deriving DecidableEq

/-- Apply one helper-level input (error flags of the helpers are dropped;
the scenarios of interest do not raise). -/
def swStep (st : LoggerState) : SwInput → LoggerState
  | .start ev => (start_switch_event st ev.dpid ev).1
  | .finish dpid => (finish_switch_event st dpid).1
  | .succ ev mid_in pid_in => add_successor_to_switch_event st ev mid_in pid_in
  | .oper op => add_operation_to_switch_event st op

/-- Run a sequence of helper-level inputs. -/
def swRun (st : LoggerState) (l : List SwInput) : LoggerState :=
  l.foldl swStep st

/-- A successor arrival: the emitted event plus the optional `mid_in` /
`pid_in` links passed to `add_successor_to_switch_event`. -/
abbrev Successor := Emitted × Option Nat × Option Nat

/-- The handle as mutated by a list of queued successors: every `mid_in` link
is appended to `mid_out` and every `pid_in` link to `pid_out`, in arrival
order. -/
def linkSuccessors (h : Handle) (l : List Successor) : Handle :=
  l.foldl (fun h s =>
    let h1 := match s.2.1 with
      | some m => { h with mid_out := h.mid_out ++ [m] }
      | none => h
    match s.2.2 with
      | some p => { h1 with pid_out := h1.pid_out ++ [p] }
      | none => h1) h

end HB

namespace RD

/-- Concrete write operation for witness scenarios. -/
def exOpW1 : Op := ⟨"TraceSwitchFlowTableWrite", 100, 0, 0⟩

/-- Concrete write operation for witness scenarios. -/
def exOpW2 : Op := ⟨"TraceSwitchFlowTableWrite", 101, 0, 0⟩

/-- Concrete read operation for witness scenarios. -/
def exOpR1 : Op := ⟨"TraceSwitchFlowTableRead", 102, 0, 0⟩

/-- Concrete handle event with one write, all on dpid 5. -/
def exEv1 : Event := ⟨1, 5, some [exOpW1]⟩

/-- Concrete handle event with one write. -/
def exEv2 : Event := ⟨2, 5, some [exOpW2]⟩

/-- Concrete handle event with one read. -/
def exEv3 : Event := ⟨3, 5, some [exOpR1]⟩

/-- Concrete edgeless happens-before graph: all pairs are HB-unordered. -/
def exGraph : HBGraph := ⟨[], [exEv1, exEv2, exEv3]⟩

/-- A commutativity oracle that declares nothing commutative. -/
def cFalse : Event → Op → Event → Op → Bool := fun _ _ _ _ => false

/-- A commutativity oracle that declares everything commutative. -/
def cTrue : Event → Op → Event → Op → Bool := fun _ _ _ _ => true

end RD

namespace HB

/-- Whether an emitted record is one of the two synthetic controller-edge
events. -/
def isControllerEdge : Emitted → Bool
  | .controllerHandle _ _ => true
  | .controllerSend _ _ => true
  | _ => false

/-- Witness state for the `MessageIn` claim: one unmatched outbound tuple
`(mid_out 5, b64 9)` under dpid 1, no swid bindings yet. -/
def exAckSt : LoggerState :=
  ⟨⟨[], 0⟩, ⟨[], 0⟩, [], [], [], [(1, [(5, 9)])], [], [], [], [], [], []⟩

/-- Witness handle: a started `HbPacketHandle` on dpid 2 for packet 7 whose
`pid_in` is tag 0. -/
def exBufHandle : Handle :=
  ⟨.packetHandle, 2, some 0, 0, 7, ⟨0, 0⟩, 0, 3, [], [], []⟩

/-- Witness state for the `BufferPut` claim: packet 7 carries tag 0 and the
handle `exBufHandle` is started on dpid 2. -/
def exBufSt : LoggerState :=
  ⟨⟨[(7, 0)], 1⟩, ⟨[], 0⟩, [(2, exBufHandle)], [], [], [], [], [], [], [], [],
   []⟩

end HB

namespace HBAux

theorem alook_aupd_self {α β : Type} [DecidableEq α] (l : List (α × β)) (k : α)
    (v : β) : alook (aupd l k v) k = some v := by
  induction l with
  | nil => simp [aupd, alook]
  | cons p t ih =>
    by_cases h : p.1 = k
    · simp [aupd, h, alook]
    · simp [aupd, h, alook, ih]

theorem alook_aupd_ne {α β : Type} [DecidableEq α] (l : List (α × β))
    (k k1 : α) (v : β) (h : k1 ≠ k) : alook (aupd l k v) k1 = alook l k1 := by
  have hk : ¬ k = k1 := fun hh => h hh.symm
  induction l with
  | nil => simp [aupd, alook, hk]
  | cons p t ih =>
    by_cases hp : p.1 = k
    · simp only [aupd, if_pos hp]
      show (if k = k1 then some v else alook t k1) =
        (if p.1 = k1 then some p.2 else alook t k1)
      rw [if_neg hk, if_neg (by rw [hp]; exact hk)]
    · simp only [aupd, if_neg hp]
      by_cases hk1 : p.1 = k1
      · simp [alook, hk1]
      · simp [alook, hk1, ih]

theorem mem_aupd {α β : Type} [DecidableEq α] {l : List (α × β)} {k : α}
    {v : β} {p : α × β} (h : p ∈ aupd l k v) : p = (k, v) ∨ p ∈ l := by
  induction l with
  | nil => simpa [aupd] using h
  | cons q t ih =>
    by_cases hq : q.1 = k
    · simp only [aupd, if_pos hq, List.mem_cons] at h
      rcases h with h | h
      · exact Or.inl h
      · exact Or.inr (List.mem_cons_of_mem _ h)
    · simp only [aupd, if_neg hq, List.mem_cons] at h
      rcases h with h | h
      · exact Or.inr (by simp [h])
      · rcases ih h with h1 | h1
        · exact Or.inl h1
        · exact Or.inr (List.mem_cons_of_mem _ h1)

theorem mem_aer {α β : Type} [DecidableEq α] {l : List (α × β)} {k : α}
    {p : α × β} (h : p ∈ aer l k) : p ∈ l :=
  (List.mem_filter.mp h).1

theorem alook_mem {α β : Type} [DecidableEq α] {l : List (α × β)} {k : α}
    {v : β} (h : alook l k = some v) : (k, v) ∈ l := by
  induction l with
  | nil => simp [alook] at h
  | cons q t ih =>
    by_cases hq : q.1 = k
    · simp only [alook, if_pos hq] at h
      have hqv : (k, v) = q := by
        obtain ⟨q1, q2⟩ := q
        simp only [Option.some.injEq] at h
        simp only at hq
        simp [hq, h]
      exact List.mem_cons.mpr (Or.inl hqv)
    · simp only [alook, if_neg hq] at h
      exact List.mem_cons_of_mem _ (ih h)

theorem aer_cons {α β : Type} [DecidableEq α] (p : α × β) (t : List (α × β))
    (k : α) : aer (p :: t) k = if p.1 = k then aer t k else p :: aer t k := by
  by_cases hp : p.1 = k <;> simp [aer, hp]

theorem alook_aer_ne {α β : Type} [DecidableEq α] (l : List (α × β))
    (k k1 : α) (h : k1 ≠ k) : alook (aer l k) k1 = alook l k1 := by
  induction l with
  | nil => simp [aer, alook]
  | cons p t ih =>
    rw [aer_cons]
    by_cases hp : p.1 = k
    · rw [if_pos hp, ih]
      have hp1 : ¬ p.1 = k1 := by rw [hp]; exact fun hh => h hh.symm
      simp [alook, hp1]
    · rw [if_neg hp]
      by_cases hk1 : p.1 = k1 <;> simp [alook, hk1, ih]

theorem alook_aer_self {α β : Type} [DecidableEq α] (l : List (α × β))
    (k : α) : alook (aer l k) k = none := by
  induction l with
  | nil => simp [aer, alook]
  | cons p t ih =>
    rw [aer_cons]
    by_cases hp : p.1 = k
    · rw [if_pos hp]; exact ih
    · rw [if_neg hp]; simp [alook, hp, ih]

theorem mem_addIfAbsent {α : Type} [DecidableEq α] (x y : α) (l : List α) :
    y ∈ addIfAbsent x l ↔ y = x ∨ y ∈ l := by
  unfold addIfAbsent
  by_cases h : x ∈ l
  · simp only [if_pos h]
    constructor
    · exact Or.inr
    · rintro (rfl | hy)
      · exact h
      · exact hy
  · simp [if_neg h, or_comm]

end HBAux

namespace Reach

theorem subset_reachStep (edges : List (Nat × Nat)) (vs : List Nat) :
    vs ⊆ reachStep edges vs := by
  intro x hx
  simp [reachStep, List.mem_append]
  exact Or.inl hx

theorem subset_reachIter (edges : List (Nat × Nat)) :
    ∀ (n : Nat) (vs : List Nat), vs ⊆ reachIter edges n vs := by
  intro n
  induction n with
  | zero => intro vs; simp [reachIter]
  | succ m ih =>
    intro vs
    exact fun x hx => ih (reachStep edges vs) (subset_reachStep edges vs hx)

theorem mem_reachStep {edges : List (Nat × Nat)} {vs : List Nat} {x : Nat}
    (h : x ∈ reachStep edges vs) :
    x ∈ vs ∨ ∃ u, u ∈ vs ∧ (u, x) ∈ edges := by
  simp only [reachStep, List.mem_append] at h
  rcases h with h | h
  · exact Or.inl h
  · right
    simp only [List.mem_map] at h
    obtain ⟨e, he, rfl⟩ := h
    simp only [succsFrom, List.mem_filter, Bool.and_eq_true, decide_eq_true_eq,
      Bool.not_eq_true'] at he
    exact ⟨e.1, he.2.1, he.1⟩

theorem reachIter_sound (edges : List (Nat × Nat)) (s : Nat) :
    ∀ (n : Nat) (vs : List Nat), (∀ v ∈ vs, Reaches edges s v) →
    ∀ v ∈ reachIter edges n vs, Reaches edges s v := by
  intro n
  induction n with
  | zero => intro vs h v hv; exact h v hv
  | succ m ih =>
    intro vs h v hv
    refine ih (reachStep edges vs) ?_ v hv
    intro w hw
    rcases mem_reachStep hw with h1 | ⟨u, hu, hedge⟩
    · exact h w h1
    · exact Relation.ReflTransGen.tail (h u hu) hedge

theorem hasPath_sound {edges : List (Nat × Nat)} {s t : Nat}
    (h : hasPath edges s t = true) : Reaches edges s t := by
  have ht : t ∈ reachList edges s := by simpa [hasPath] using h
  refine reachIter_sound edges s _ [s] ?_ t ht
  intro v hv
  simp only [List.mem_singleton] at hv
  subst hv
  exact Relation.ReflTransGen.refl

theorem reachStep_of_sat {edges : List (Nat × Nat)} {vs : List Nat}
    (h : Sat edges vs) : reachStep edges vs = vs := by
  have : succsFrom edges vs = [] := by
    refine List.filter_eq_nil_iff.mpr ?_
    intro e he
    by_cases h1 : e.1 ∈ vs
    · have h2 : e.2 ∈ vs := h e he h1
      simp [h1, h2]
    · simp [h1]
  simp [reachStep, this]

theorem reachIter_of_sat {edges : List (Nat × Nat)} {vs : List Nat}
    (h : Sat edges vs) : ∀ n, reachIter edges n vs = vs := by
  intro n
  induction n with
  | zero => rfl
  | succ m ih => simp [reachIter, reachStep_of_sat h, ih]

theorem reachStep_subset_union {edges : List (Nat × Nat)} {vs U : List Nat}
    (hU : ∀ p ∈ edges, p.2 ∈ U) (hvs : vs ⊆ U) :
    reachStep edges vs ⊆ U := by
  intro x hx
  rcases mem_reachStep hx with h | ⟨u, _, hedge⟩
  · exact hvs h
  · exact hU (u, x) hedge

theorem sat_reachIter (edges : List (Nat × Nat)) (U : List Nat)
    (hU : ∀ p ∈ edges, p.2 ∈ U) :
    ∀ (n : Nat) (vs : List Nat), vs ⊆ U →
    U.toFinset.card ≤ n + vs.toFinset.card →
    Sat edges (reachIter edges n vs) := by
  intro n
  induction n with
  | zero =>
    intro vs hsub hcard
    have hsubF : vs.toFinset ⊆ U.toFinset := by
      intro a ha
      simp only [List.mem_toFinset] at ha ⊢
      exact hsub ha
    have heq : vs.toFinset = U.toFinset :=
      Finset.eq_of_subset_of_card_le hsubF (by simpa using hcard)
    intro p hp h1
    have h2 : p.2 ∈ U.toFinset := List.mem_toFinset.mpr (hU p hp)
    rw [← heq] at h2
    simpa [reachIter] using List.mem_toFinset.mp h2
  | succ m ih =>
    intro vs hsub hcard
    by_cases hsat : Sat edges vs
    · have : reachIter edges (m + 1) vs = vs := reachIter_of_sat hsat _
      rw [this]
      exact hsat
    · simp only [Sat, not_forall] at hsat
      obtain ⟨p, hp, h1, h2⟩ := hsat
      have hmem : p.2 ∈ reachStep edges vs := by
        simp only [reachStep, List.mem_append, List.mem_map]
        right
        refine ⟨p, ?_, rfl⟩
        simp only [succsFrom, List.mem_filter, Bool.and_eq_true,
          decide_eq_true_eq, Bool.not_eq_true']
        exact ⟨hp, h1, decide_eq_false h2⟩
      have hgrow : vs.toFinset.card + 1 ≤ (reachStep edges vs).toFinset.card := by
        have hins : insert p.2 vs.toFinset ⊆ (reachStep edges vs).toFinset := by
          intro a ha
          rcases Finset.mem_insert.mp ha with rfl | ha
          · exact List.mem_toFinset.mpr hmem
          · exact List.mem_toFinset.mpr
              (subset_reachStep edges vs (List.mem_toFinset.mp ha))
        calc vs.toFinset.card + 1
            = (insert p.2 vs.toFinset).card := by
              rw [Finset.card_insert_of_not_mem (by simpa using h2)]
          _ ≤ (reachStep edges vs).toFinset.card := Finset.card_le_card hins
      have : Sat edges (reachIter edges m (reachStep edges vs)) := by
        refine ih (reachStep edges vs) (reachStep_subset_union hU hsub) ?_
        omega
      simpa [reachIter] using this

theorem sat_reachList (edges : List (Nat × Nat)) (s : Nat) :
    Sat edges (reachList edges s) := by
  refine sat_reachIter edges (s :: edges.map Prod.snd) ?_ (edges.length + 1)
    [s] ?_ ?_
  · intro p hp
    exact List.mem_cons_of_mem _ (List.mem_map.mpr ⟨p, hp, rfl⟩)
  · intro x hx
    simp only [List.mem_singleton] at hx
    simp [hx]
  · calc (s :: edges.map Prod.snd).toFinset.card
        ≤ (s :: edges.map Prod.snd).length := List.toFinset_card_le _
      _ = edges.length + 1 := by simp
      _ ≤ (edges.length + 1) + [s].toFinset.card := by simp

theorem self_mem_reachList (edges : List (Nat × Nat)) (s : Nat) :
    s ∈ reachList edges s :=
  subset_reachIter edges (edges.length + 1) [s] (by simp)

theorem reaches_mem_reachList {edges : List (Nat × Nat)} {s t : Nat}
    (h : Reaches edges s t) : t ∈ reachList edges s := by
  induction h with
  | refl => exact self_mem_reachList edges s
  | tail _ hedge ih => exact sat_reachList edges s _ hedge ih

theorem hasPath_iff_reaches (edges : List (Nat × Nat)) (s t : Nat) :
    hasPath edges s t = true ↔ Reaches edges s t := by
  constructor
  · exact hasPath_sound
  · intro h
    simpa [hasPath] using reaches_mem_reachList h

theorem hasPath_self (edges : List (Nat × Nat)) (s : Nat) :
    hasPath edges s s = true := by
  simpa [hasPath] using self_mem_reachList edges s

theorem reaches_swap (edges : List (Nat × Nat)) (a b : Nat) :
    Reaches (swapEdges edges) a b ↔ Reaches edges b a := by
  have hmem : ∀ x y : Nat, (x, y) ∈ swapEdges edges ↔ (y, x) ∈ edges := by
    intro x y
    simp only [swapEdges, List.mem_map, Prod.mk.injEq]
    constructor
    · rintro ⟨p, hp, rfl, rfl⟩
      exact hp
    · intro h
      exact ⟨(y, x), h, rfl, rfl⟩
  constructor
  · intro h
    induction h with
    | refl => exact Relation.ReflTransGen.refl
    | tail _ hedge ih =>
      exact Relation.ReflTransGen.head ((hmem _ _).mp hedge) ih
  · intro h
    induction h with
    | refl => exact Relation.ReflTransGen.refl
    | tail _ hedge ih =>
      exact Relation.ReflTransGen.head ((hmem _ _).mpr hedge) ih

end Reach

namespace RD

open HBAux Reach

theorem is_ordered_false {g : HBGraph} {e o : Event}
    (h : is_ordered g e o = false) :
    hasPath g.edges e.eid o.eid = false ∧ hasPath g.edges o.eid e.eid = false := by
  simp only [is_ordered, is_reachable, Bool.or_eq_false_iff] at h
  obtain ⟨h1, h2⟩ := h
  rcases Nat.lt_trichotomy e.eid o.eid with hlt | heq | hgt
  · rw [if_pos hlt] at h1 h2
    rw [if_neg (by omega : ¬ e.eid > o.eid)] at h1 h2
    exact ⟨h2, h1⟩
  · rw [if_neg (by omega : ¬ e.eid < o.eid),
        if_neg (by omega : ¬ e.eid > o.eid)] at h1
    rw [hasPath_self] at h1
    exact absurd h1 (by simp)
  · rw [if_neg (by omega : ¬ e.eid < o.eid)] at h1 h2
    rw [if_pos hgt] at h1 h2
    exact ⟨h1, h2⟩

theorem raceCond_spec {g : HBGraph} {ev : Option Event} {p : Cand}
    (h : raceCond g ev p = true) :
    p.1.1 ≠ p.2.1 ∧ p.1.1.dpid = p.2.1.dpid ∧ is_ordered g p.1.1 p.2.1 = false ∧
    ¬ Reaches g.edges p.1.1.eid p.2.1.eid ∧
    ¬ Reaches g.edges p.2.1.eid p.1.1.eid := by
  simp only [raceCond, Bool.and_eq_true, decide_eq_true_eq,
    Bool.not_eq_true'] at h
  obtain ⟨⟨⟨hne, _⟩, hdpid⟩, hord⟩ := h
  have hp := is_ordered_false hord
  refine ⟨hne, hdpid, hord, ?_, ?_⟩
  · intro hr
    have := (hasPath_iff_reaches g.edges p.1.1.eid p.2.1.eid).mpr hr
    rw [hp.1] at this
    exact absurd this (by simp)
  · intro hr
    have := (hasPath_iff_reaches g.edges p.2.1.eid p.1.1.eid).mpr hr
    rw [hp.2] at this
    exact absurd this (by simp)

theorem ww_fold_commute (g : HBGraph) (ev : Option Event)
    (c : Event → Op → Event → Op → Bool) :
    ∀ (l : List Cand) (st : DetectorState),
    (l.foldl (wwStep g ev c) st).races_commute
      = st.races_commute ++
        (l.filter (fun p => raceCond g ev p && c p.1.1 p.1.2 p.2.1 p.2.2)).map
          (mkRace "w/w") := by
  intro l
  induction l with
  | nil => intro st; simp
  | cons p t ih =>
    intro st
    rw [List.foldl_cons, ih, List.filter_cons]
    by_cases h1 : raceCond g ev p = true
    · by_cases h2 : c p.1.1 p.1.2 p.2.1 p.2.2 = true
      · simp [wwStep, h1, h2]
      · simp [wwStep, h1, h2]
    · simp [wwStep, h1]

theorem ww_fold_harmful (g : HBGraph) (ev : Option Event)
    (c : Event → Op → Event → Op → Bool) :
    ∀ (l : List Cand) (st : DetectorState),
    (l.foldl (wwStep g ev c) st).races_harmful
      = st.races_harmful ++
        (l.filter (fun p => raceCond g ev p && !c p.1.1 p.1.2 p.2.1 p.2.2)).map
          (mkRace "w/w") := by
  intro l
  induction l with
  | nil => intro st; simp
  | cons p t ih =>
    intro st
    rw [List.foldl_cons, ih, List.filter_cons]
    by_cases h1 : raceCond g ev p = true
    · by_cases h2 : c p.1.1 p.1.2 p.2.1 p.2.2 = true
      · simp [wwStep, h1, h2]
      · simp [wwStep, h1, h2]
    · simp [wwStep, h1]

theorem ww_fold_preserved (g : HBGraph) (ev : Option Event)
    (c : Event → Op → Event → Op → Bool) :
    ∀ (l : List Cand) (st : DetectorState),
    (l.foldl (wwStep g ev c) st).read_operations = st.read_operations ∧
    (l.foldl (wwStep g ev c) st).write_operations = st.write_operations ∧
    (l.foldl (wwStep g ev c) st).total_operations = st.total_operations ∧
    (l.foldl (wwStep g ev c) st).total_harmful = st.total_harmful ∧
    (l.foldl (wwStep g ev c) st).total_commute = st.total_commute ∧
    (l.foldl (wwStep g ev c) st).total_filtered = st.total_filtered ∧
    (l.foldl (wwStep g ev c) st).total_races = st.total_races := by
  intro l
  induction l with
  | nil => intro st; simp
  | cons p t ih =>
    intro st
    rw [List.foldl_cons]
    have := ih (wwStep g ev c st p)
    by_cases h1 : raceCond g ev p = true
    · by_cases h2 : c p.1.1 p.1.2 p.2.1 p.2.2 = true
      · simpa [wwStep, h1, h2] using this
      · simpa [wwStep, h1, h2] using this
    · simpa [wwStep, h1] using this

theorem ww_fold_racing (g : HBGraph) (ev : Option Event)
    (c : Event → Op → Event → Op → Bool) :
    ∀ (l : List Cand) (st : DetectorState) (e : Event),
    (e ∈ (l.foldl (wwStep g ev c) st).racing_events ↔
      e ∈ st.racing_events ∨
        ∃ p ∈ l, raceCond g ev p = true ∧ (e = p.1.1 ∨ e = p.2.1)) := by
  intro l
  induction l with
  | nil => intro st e; simp
  | cons p t ih =>
    intro st e
    rw [List.foldl_cons, ih]
    by_cases h1 : raceCond g ev p = true
    · have hmem : e ∈ (wwStep g ev c st p).racing_events ↔
          e = p.2.1 ∨ e = p.1.1 ∨ e ∈ st.racing_events := by
        by_cases h2 : c p.1.1 p.1.2 p.2.1 p.2.2 = true
        · simp [wwStep, h1, h2, mem_addIfAbsent]
        · simp [wwStep, h1, h2, mem_addIfAbsent]
      rw [hmem]
      simp only [List.mem_cons]
      constructor
      · rintro ((rfl | rfl | he) | ⟨q, hq, hcond, hor⟩)
        · exact Or.inr ⟨p, Or.inl rfl, h1, Or.inr rfl⟩
        · exact Or.inr ⟨p, Or.inl rfl, h1, Or.inl rfl⟩
        · exact Or.inl he
        · exact Or.inr ⟨q, Or.inr hq, hcond, hor⟩
      · rintro (he | ⟨q, (rfl | hq), hcond, hor⟩)
        · exact Or.inl (Or.inr (Or.inr he))
        · rcases hor with rfl | rfl
          · exact Or.inl (Or.inr (Or.inl rfl))
          · exact Or.inl (Or.inl rfl)
        · exact Or.inr ⟨q, hq, hcond, hor⟩
    · have hmem : (wwStep g ev c st p).racing_events = st.racing_events := by
        simp [wwStep, h1]
      rw [hmem]
      simp only [List.mem_cons]
      constructor
      · rintro (he | ⟨q, hq, hcond, hor⟩)
        · exact Or.inl he
        · exact Or.inr ⟨q, Or.inr hq, hcond, hor⟩
      · rintro (he | ⟨q, (rfl | hq), hcond, hor⟩)
        · exact Or.inl he
        · exact absurd hcond h1
        · exact Or.inr ⟨q, hq, hcond, hor⟩

theorem ww_fold_racing_harmful (g : HBGraph) (ev : Option Event)
    (c : Event → Op → Event → Op → Bool) :
    ∀ (l : List Cand) (st : DetectorState) (e : Event),
    (e ∈ (l.foldl (wwStep g ev c) st).racing_events_harmful ↔
      e ∈ st.racing_events_harmful ∨
        ∃ p ∈ l, (raceCond g ev p && !c p.1.1 p.1.2 p.2.1 p.2.2) = true ∧
          (e = p.1.1 ∨ e = p.2.1)) := by
  intro l
  induction l with
  | nil => intro st e; simp
  | cons p t ih =>
    intro st e
    rw [List.foldl_cons, ih]
    by_cases h1 : raceCond g ev p = true
    · by_cases h2 : c p.1.1 p.1.2 p.2.1 p.2.2 = true
      · have hmem : (wwStep g ev c st p).racing_events_harmful =
            st.racing_events_harmful := by simp [wwStep, h1, h2]
        rw [hmem]
        simp only [List.mem_cons]
        constructor
        · rintro (he | ⟨q, hq, hcond, hor⟩)
          · exact Or.inl he
          · exact Or.inr ⟨q, Or.inr hq, hcond, hor⟩
        · rintro (he | ⟨q, (rfl | hq), hcond, hor⟩)
          · exact Or.inl he
          · rw [h1, h2] at hcond; simp at hcond
          · exact Or.inr ⟨q, hq, hcond, hor⟩
      · have hmem : e ∈ (wwStep g ev c st p).racing_events_harmful ↔
            e = p.2.1 ∨ e = p.1.1 ∨ e ∈ st.racing_events_harmful := by
          simp [wwStep, h1, h2, mem_addIfAbsent]
        rw [hmem]
        simp only [List.mem_cons]
        constructor
        · rintro ((rfl | rfl | he) | ⟨q, hq, hcond, hor⟩)
          · exact Or.inr ⟨p, Or.inl rfl, by simp [h1, h2], Or.inr rfl⟩
          · exact Or.inr ⟨p, Or.inl rfl, by simp [h1, h2], Or.inl rfl⟩
          · exact Or.inl he
          · exact Or.inr ⟨q, Or.inr hq, hcond, hor⟩
        · rintro (he | ⟨q, (rfl | hq), hcond, hor⟩)
          · exact Or.inl (Or.inr (Or.inr he))
          · rcases hor with rfl | rfl
            · exact Or.inl (Or.inr (Or.inl rfl))
            · exact Or.inl (Or.inl rfl)
          · exact Or.inr ⟨q, hq, hcond, hor⟩
    · have hmem : (wwStep g ev c st p).racing_events_harmful =
          st.racing_events_harmful := by simp [wwStep, h1]
      rw [hmem]
      simp only [List.mem_cons]
      constructor
      · rintro (he | ⟨q, hq, hcond, hor⟩)
        · exact Or.inl he
        · exact Or.inr ⟨q, Or.inr hq, hcond, hor⟩
      · rintro (he | ⟨q, (rfl | hq), hcond, hor⟩)
        · exact Or.inl he
        · rw [Bool.and_eq_true] at hcond; exact absurd hcond.1 h1
        · exact Or.inr ⟨q, hq, hcond, hor⟩

end RD

namespace RD

open HBAux Reach

theorem rw_fold_commute (g : HBGraph) (ev : Option Event)
    (c : Event → Op → Event → Op → Bool) (f : Bool) :
    ∀ (l : List Cand) (st : DetectorState),
    (l.foldl (rwStep g ev c f) st).races_commute
      = st.races_commute ++
        (l.filter (fun p =>
          (raceCond g ev p && !(f && !has_common_ancestor g p.1.1 p.2.1)) &&
            c p.1.1 p.1.2 p.2.1 p.2.2)).map (mkRace "r/w") := by
  intro l
  induction l with
  | nil => intro st; simp
  | cons p t ih =>
    intro st
    rw [List.foldl_cons, ih, List.filter_cons]
    by_cases h1 : raceCond g ev p = true
    · by_cases h2 : (f && !has_common_ancestor g p.1.1 p.2.1) = true
      · simp [rwStep, h1, h2]
      · by_cases h3 : c p.1.1 p.1.2 p.2.1 p.2.2 = true
        · simp [rwStep, h1, h2, h3]
        · simp [rwStep, h1, h2, h3]
    · simp [rwStep, h1]

theorem rw_fold_harmful (g : HBGraph) (ev : Option Event)
    (c : Event → Op → Event → Op → Bool) (f : Bool) :
    ∀ (l : List Cand) (st : DetectorState),
    (l.foldl (rwStep g ev c f) st).races_harmful
      = st.races_harmful ++
        (l.filter (fun p =>
          (raceCond g ev p && !(f && !has_common_ancestor g p.1.1 p.2.1)) &&
            !c p.1.1 p.1.2 p.2.1 p.2.2)).map (mkRace "r/w") := by
  intro l
  induction l with
  | nil => intro st; simp
  | cons p t ih =>
    intro st
    rw [List.foldl_cons, ih, List.filter_cons]
    by_cases h1 : raceCond g ev p = true
    · by_cases h2 : (f && !has_common_ancestor g p.1.1 p.2.1) = true
      · simp [rwStep, h1, h2]
      · by_cases h3 : c p.1.1 p.1.2 p.2.1 p.2.2 = true
        · simp [rwStep, h1, h2, h3]
        · simp [rwStep, h1, h2, h3]
    · simp [rwStep, h1]

theorem rw_fold_filtered (g : HBGraph) (ev : Option Event)
    (c : Event → Op → Event → Op → Bool) (f : Bool) :
    ∀ (l : List Cand) (st : DetectorState),
    (l.foldl (rwStep g ev c f) st).total_filtered
      = st.total_filtered +
        l.countP (fun p =>
          raceCond g ev p && (f && !has_common_ancestor g p.1.1 p.2.1)) := by
  intro l
  induction l with
  | nil => intro st; simp
  | cons p t ih =>
    intro st
    rw [List.foldl_cons, ih, List.countP_cons]
    by_cases h1 : raceCond g ev p = true
    · by_cases h2 : (f && !has_common_ancestor g p.1.1 p.2.1) = true
      · simp [rwStep, h1, h2]
        omega
      · by_cases h3 : c p.1.1 p.1.2 p.2.1 p.2.2 = true
        · simp [rwStep, h1, h2, h3]
        · simp [rwStep, h1, h2, h3]
    · simp [rwStep, h1]

theorem rw_fold_preserved (g : HBGraph) (ev : Option Event)
    (c : Event → Op → Event → Op → Bool) (f : Bool) :
    ∀ (l : List Cand) (st : DetectorState),
    (l.foldl (rwStep g ev c f) st).read_operations = st.read_operations ∧
    (l.foldl (rwStep g ev c f) st).write_operations = st.write_operations ∧
    (l.foldl (rwStep g ev c f) st).total_operations = st.total_operations ∧
    (l.foldl (rwStep g ev c f) st).total_harmful = st.total_harmful ∧
    (l.foldl (rwStep g ev c f) st).total_commute = st.total_commute ∧
    (l.foldl (rwStep g ev c f) st).total_races = st.total_races := by
  intro l
  induction l with
  | nil => intro st; simp
  | cons p t ih =>
    intro st
    rw [List.foldl_cons]
    have := ih (rwStep g ev c f st p)
    by_cases h1 : raceCond g ev p = true
    · by_cases h2 : (f && !has_common_ancestor g p.1.1 p.2.1) = true
      · simpa [rwStep, h1, h2] using this
      · by_cases h3 : c p.1.1 p.1.2 p.2.1 p.2.2 = true
        · simpa [rwStep, h1, h2, h3] using this
        · simpa [rwStep, h1, h2, h3] using this
    · simpa [rwStep, h1] using this

theorem rw_fold_racing (g : HBGraph) (ev : Option Event)
    (c : Event → Op → Event → Op → Bool) (f : Bool) :
    ∀ (l : List Cand) (st : DetectorState) (e : Event),
    (e ∈ (l.foldl (rwStep g ev c f) st).racing_events ↔
      e ∈ st.racing_events ∨
        ∃ p ∈ l,
          (raceCond g ev p && !(f && !has_common_ancestor g p.1.1 p.2.1)) = true ∧
          (e = p.1.1 ∨ e = p.2.1)) := by
  intro l
  induction l with
  | nil => intro st e; simp
  | cons p t ih =>
    intro st e
    rw [List.foldl_cons, ih]
    by_cases hk : (raceCond g ev p &&
        !(f && !has_common_ancestor g p.1.1 p.2.1)) = true
    · have hmem : e ∈ (rwStep g ev c f st p).racing_events ↔
          e = p.2.1 ∨ e = p.1.1 ∨ e ∈ st.racing_events := by
        rw [Bool.and_eq_true] at hk
        have h2 : (f && !has_common_ancestor g p.1.1 p.2.1) = false := by
          cases hx : (f && !has_common_ancestor g p.1.1 p.2.1)
          · rfl
          · have hz := hk.2
            rw [hx] at hz
            simp at hz
        have hcond : ¬ (f = true ∧ has_common_ancestor g p.1.1 p.2.1 = false) := by
          rintro ⟨hf, ha⟩
          rw [hf, ha] at h2
          simp at h2
        by_cases h3 : c p.1.1 p.1.2 p.2.1 p.2.2 = true
        · simp [rwStep, hk.1, hcond, h3, mem_addIfAbsent]
        · simp [rwStep, hk.1, hcond, h3, mem_addIfAbsent]
      rw [hmem]
      simp only [List.mem_cons]
      constructor
      · rintro ((rfl | rfl | he) | ⟨q, hq, hcond, hor⟩)
        · exact Or.inr ⟨p, Or.inl rfl, hk, Or.inr rfl⟩
        · exact Or.inr ⟨p, Or.inl rfl, hk, Or.inl rfl⟩
        · exact Or.inl he
        · exact Or.inr ⟨q, Or.inr hq, hcond, hor⟩
      · rintro (he | ⟨q, (rfl | hq), hcond, hor⟩)
        · exact Or.inl (Or.inr (Or.inr he))
        · rcases hor with rfl | rfl
          · exact Or.inl (Or.inr (Or.inl rfl))
          · exact Or.inl (Or.inl rfl)
        · exact Or.inr ⟨q, hq, hcond, hor⟩
    · have hmem : (rwStep g ev c f st p).racing_events = st.racing_events := by
        by_cases h1 : raceCond g ev p = true
        · by_cases h2 : (f && !has_common_ancestor g p.1.1 p.2.1) = true
          · simp [rwStep, h1, h2]
          · exact absurd (by simp [h1, h2]) hk
        · simp [rwStep, h1]
      rw [hmem]
      simp only [List.mem_cons]
      constructor
      · rintro (he | ⟨q, hq, hcond, hor⟩)
        · exact Or.inl he
        · exact Or.inr ⟨q, Or.inr hq, hcond, hor⟩
      · rintro (he | ⟨q, (rfl | hq), hcond, hor⟩)
        · exact Or.inl he
        · exact absurd hcond hk
        · exact Or.inr ⟨q, hq, hcond, hor⟩

theorem rw_fold_racing_harmful (g : HBGraph) (ev : Option Event)
    (c : Event → Op → Event → Op → Bool) (f : Bool) :
    ∀ (l : List Cand) (st : DetectorState) (e : Event),
    (e ∈ (l.foldl (rwStep g ev c f) st).racing_events_harmful ↔
      e ∈ st.racing_events_harmful ∨
        ∃ p ∈ l,
          ((raceCond g ev p && !(f && !has_common_ancestor g p.1.1 p.2.1)) &&
            !c p.1.1 p.1.2 p.2.1 p.2.2) = true ∧
          (e = p.1.1 ∨ e = p.2.1)) := by
  intro l
  induction l with
  | nil => intro st e; simp
  | cons p t ih =>
    intro st e
    rw [List.foldl_cons, ih]
    by_cases hk : ((raceCond g ev p &&
        !(f && !has_common_ancestor g p.1.1 p.2.1)) &&
          !c p.1.1 p.1.2 p.2.1 p.2.2) = true
    · have hmem : e ∈ (rwStep g ev c f st p).racing_events_harmful ↔
          e = p.2.1 ∨ e = p.1.1 ∨ e ∈ st.racing_events_harmful := by
        rw [Bool.and_eq_true, Bool.and_eq_true] at hk
        have h3 : c p.1.1 p.1.2 p.2.1 p.2.2 = false := by
          simpa using hk.2
        have h2 : (f && !has_common_ancestor g p.1.1 p.2.1) = false := by
          cases hx : (f && !has_common_ancestor g p.1.1 p.2.1)
          · rfl
          · have hz := hk.1.2
            rw [hx] at hz
            simp at hz
        have hcond : ¬ (f = true ∧ has_common_ancestor g p.1.1 p.2.1 = false) := by
          rintro ⟨hf, ha⟩
          rw [hf, ha] at h2
          simp at h2
        simp [rwStep, hk.1.1, hcond, h3, mem_addIfAbsent]
      rw [hmem]
      simp only [List.mem_cons]
      constructor
      · rintro ((rfl | rfl | he) | ⟨q, hq, hcond, hor⟩)
        · exact Or.inr ⟨p, Or.inl rfl, hk, Or.inr rfl⟩
        · exact Or.inr ⟨p, Or.inl rfl, hk, Or.inl rfl⟩
        · exact Or.inl he
        · exact Or.inr ⟨q, Or.inr hq, hcond, hor⟩
      · rintro (he | ⟨q, (rfl | hq), hcond, hor⟩)
        · exact Or.inl (Or.inr (Or.inr he))
        · rcases hor with rfl | rfl
          · exact Or.inl (Or.inr (Or.inl rfl))
          · exact Or.inl (Or.inl rfl)
        · exact Or.inr ⟨q, hq, hcond, hor⟩
    · have hmem : (rwStep g ev c f st p).racing_events_harmful =
          st.racing_events_harmful := by
        by_cases h1 : raceCond g ev p = true
        · by_cases h2 : (f && !has_common_ancestor g p.1.1 p.2.1) = true
          · simp [rwStep, h1, h2]
          · by_cases h3 : c p.1.1 p.1.2 p.2.1 p.2.2 = true
            · simp [rwStep, h1, h2, h3]
            · exact absurd (by simp [h1, h2, h3]) hk
        · simp [rwStep, h1]
      rw [hmem]
      simp only [List.mem_cons]
      constructor
      · rintro (he | ⟨q, hq, hcond, hor⟩)
        · exact Or.inl he
        · exact Or.inr ⟨q, Or.inr hq, hcond, hor⟩
      · rintro (he | ⟨q, (rfl | hq), hcond, hor⟩)
        · exact Or.inl he
        · exact absurd hcond hk
        · exact Or.inr ⟨q, hq, hcond, hor⟩

end RD

namespace RD

open HBAux Reach

theorem detect_races_harmful_eq (g : HBGraph) (ev : Option Event)
    (ww rw : Event → Op → Event → Op → Bool) (f : Bool) (st : DetectorState) :
    (detect_races g ev ww rw f st).races_harmful =
      ((combinations2 (writeOperationsOf g)).filter
        (fun p => raceCond g ev p && !ww p.1.1 p.1.2 p.2.1 p.2.2)).map
          (mkRace "w/w") ++
      ((pairProd (readOperationsOf g) (writeOperationsOf g)).filter
        (fun p =>
          (raceCond g ev p && !(f && !has_common_ancestor g p.1.1 p.2.1)) &&
            !rw p.1.1 p.1.2 p.2.1 p.2.2)).map (mkRace "r/w") := by
  unfold detect_races detect_rw_races detect_ww_races
  dsimp only
  rw [rw_fold_harmful, ww_fold_harmful,
      (ww_fold_preserved g ev ww _ _).1, (ww_fold_preserved g ev ww _ _).2.1]
  dsimp only
  rw [List.nil_append]

theorem detect_races_commute_eq (g : HBGraph) (ev : Option Event)
    (ww rw : Event → Op → Event → Op → Bool) (f : Bool) (st : DetectorState) :
    (detect_races g ev ww rw f st).races_commute =
      ((combinations2 (writeOperationsOf g)).filter
        (fun p => raceCond g ev p && ww p.1.1 p.1.2 p.2.1 p.2.2)).map
          (mkRace "w/w") ++
      ((pairProd (readOperationsOf g) (writeOperationsOf g)).filter
        (fun p =>
          (raceCond g ev p && !(f && !has_common_ancestor g p.1.1 p.2.1)) &&
            rw p.1.1 p.1.2 p.2.1 p.2.2)).map (mkRace "r/w") := by
  unfold detect_races detect_rw_races detect_ww_races
  dsimp only
  rw [rw_fold_commute, ww_fold_commute,
      (ww_fold_preserved g ev ww _ _).1, (ww_fold_preserved g ev ww _ _).2.1]
  dsimp only
  rw [List.nil_append]

theorem detect_races_filtered_eq (g : HBGraph) (ev : Option Event)
    (ww rw : Event → Op → Event → Op → Bool) (f : Bool) (st : DetectorState) :
    (detect_races g ev ww rw f st).total_filtered =
      (pairProd (readOperationsOf g) (writeOperationsOf g)).countP
        (fun p =>
          raceCond g ev p && (f && !has_common_ancestor g p.1.1 p.2.1)) := by
  unfold detect_races detect_rw_races detect_ww_races
  dsimp only
  rw [rw_fold_filtered,
      (ww_fold_preserved g ev ww _ _).1, (ww_fold_preserved g ev ww _ _).2.1,
      (ww_fold_preserved g ev ww _ _).2.2.2.2.2.1]
  dsimp only
  rw [Nat.zero_add]

theorem detect_races_ops_eq (g : HBGraph) (ev : Option Event)
    (ww rw : Event → Op → Event → Op → Bool) (f : Bool) (st : DetectorState) :
    (detect_races g ev ww rw f st).read_operations = readOperationsOf g ∧
    (detect_races g ev ww rw f st).write_operations = writeOperationsOf g := by
  unfold detect_races detect_rw_races detect_ww_races
  dsimp only
  rw [(rw_fold_preserved g ev rw f _ _).1, (rw_fold_preserved g ev rw f _ _).2.1,
      (ww_fold_preserved g ev ww _ _).1, (ww_fold_preserved g ev ww _ _).2.1]
  dsimp only
  constructor <;> rfl

theorem detect_races_racing_mem (g : HBGraph) (ev : Option Event)
    (ww rw : Event → Op → Event → Op → Bool) (f : Bool) (st : DetectorState)
    (e : Event) :
    (e ∈ (detect_races g ev ww rw f st).racing_events ↔
      (∃ p ∈ combinations2 (writeOperationsOf g),
        raceCond g ev p = true ∧ (e = p.1.1 ∨ e = p.2.1)) ∨
      (∃ p ∈ pairProd (readOperationsOf g) (writeOperationsOf g),
        (raceCond g ev p && !(f && !has_common_ancestor g p.1.1 p.2.1)) = true ∧
          (e = p.1.1 ∨ e = p.2.1))) := by
  unfold detect_races detect_rw_races detect_ww_races
  dsimp only
  rw [rw_fold_racing,
      (ww_fold_preserved g ev ww _ _).1, (ww_fold_preserved g ev ww _ _).2.1]
  rw [ww_fold_racing]
  dsimp only
  rw [List.mem_nil_iff, false_or]

theorem detect_races_racing_harmful_mem (g : HBGraph) (ev : Option Event)
    (ww rw : Event → Op → Event → Op → Bool) (f : Bool) (st : DetectorState)
    (e : Event) :
    (e ∈ (detect_races g ev ww rw f st).racing_events_harmful ↔
      (∃ p ∈ combinations2 (writeOperationsOf g),
        (raceCond g ev p && !ww p.1.1 p.1.2 p.2.1 p.2.2) = true ∧
          (e = p.1.1 ∨ e = p.2.1)) ∨
      (∃ p ∈ pairProd (readOperationsOf g) (writeOperationsOf g),
        ((raceCond g ev p && !(f && !has_common_ancestor g p.1.1 p.2.1)) &&
          !rw p.1.1 p.1.2 p.2.1 p.2.2) = true ∧
          (e = p.1.1 ∨ e = p.2.1))) := by
  unfold detect_races detect_rw_races detect_ww_races
  dsimp only
  rw [rw_fold_racing_harmful,
      (ww_fold_preserved g ev ww _ _).1, (ww_fold_preserved g ev ww _ _).2.1]
  rw [ww_fold_racing_harmful]
  dsimp only
  rw [List.mem_nil_iff, false_or]

end RD

namespace RD

open HBAux Reach

theorem mkRace_inj {rt : String} {p q : Cand} (h : mkRace rt q = mkRace rt p) :
    q = p := by
  simp only [mkRace, Race.mk.injEq, true_and] at h
  obtain ⟨h1, h2, h3, h4⟩ := h
  have hq1 : q.1 = p.1 := Prod.ext h1 h2
  have hq2 : q.2 = p.2 := Prod.ext h3 h4
  exact Prod.ext hq1 hq2

theorem mkRace_rtype (rt : String) (p : Cand) : (mkRace rt p).rtype = rt := rfl

/-- C1: every race recorded by `detect_races` — in `races_harmful` or
`races_commute`, of either w/w or r/w type — relates two distinct handle
events of equal `dpid` that are HB-unordered: `is_ordered` is false, and
there is no directed path in the graph from either event's `eid` to the
other's. -/
theorem C1_recorded_races_distinct_same_dpid_unordered
    (g : HBGraph) (ev : Option Event) (ww rw : Event → Op → Event → Op → Bool)
    (f : Bool) (st : DetectorState) (r : Race)
    (hr : r ∈ (detect_races g ev ww rw f st).races_harmful ∨
          r ∈ (detect_races g ev ww rw f st).races_commute) :
    r.i_event ≠ r.k_event ∧
    r.i_event.dpid = r.k_event.dpid ∧
    is_ordered g r.i_event r.k_event = false ∧
    ¬ Reaches g.edges r.i_event.eid r.k_event.eid ∧
    ¬ Reaches g.edges r.k_event.eid r.i_event.eid := by
  rcases hr with hr | hr
  · rw [detect_races_harmful_eq] at hr
    rcases List.mem_append.mp hr with hm | hm
    · obtain ⟨p, hp, rfl⟩ := List.mem_map.mp hm
      have hc := (List.mem_filter.mp hp).2
      rw [Bool.and_eq_true] at hc
      exact raceCond_spec hc.1
    · obtain ⟨p, hp, rfl⟩ := List.mem_map.mp hm
      have hc := (List.mem_filter.mp hp).2
      rw [Bool.and_eq_true, Bool.and_eq_true] at hc
      exact raceCond_spec hc.1.1
  · rw [detect_races_commute_eq] at hr
    rcases List.mem_append.mp hr with hm | hm
    · obtain ⟨p, hp, rfl⟩ := List.mem_map.mp hm
      have hc := (List.mem_filter.mp hp).2
      rw [Bool.and_eq_true] at hc
      exact raceCond_spec hc.1
    · obtain ⟨p, hp, rfl⟩ := List.mem_map.mp hm
      have hc := (List.mem_filter.mp hp).2
      rw [Bool.and_eq_true, Bool.and_eq_true] at hc
      exact raceCond_spec hc.1.1

theorem C1_recorded_races_distinct_same_dpid_unordered_witness :
    (mkRace "w/w" ((exEv1, exOpW1), (exEv2, exOpW2))).i_event ≠
      (mkRace "w/w" ((exEv1, exOpW1), (exEv2, exOpW2))).k_event ∧
    (mkRace "w/w" ((exEv1, exOpW1), (exEv2, exOpW2))).i_event.dpid =
      (mkRace "w/w" ((exEv1, exOpW1), (exEv2, exOpW2))).k_event.dpid ∧
    is_ordered exGraph (mkRace "w/w" ((exEv1, exOpW1), (exEv2, exOpW2))).i_event
      (mkRace "w/w" ((exEv1, exOpW1), (exEv2, exOpW2))).k_event = false ∧
    ¬ Reaches exGraph.edges
      (mkRace "w/w" ((exEv1, exOpW1), (exEv2, exOpW2))).i_event.eid
      (mkRace "w/w" ((exEv1, exOpW1), (exEv2, exOpW2))).k_event.eid ∧
    ¬ Reaches exGraph.edges
      (mkRace "w/w" ((exEv1, exOpW1), (exEv2, exOpW2))).k_event.eid
      (mkRace "w/w" ((exEv1, exOpW1), (exEv2, exOpW2))).i_event.eid :=
  C1_recorded_races_distinct_same_dpid_unordered exGraph none cFalse cFalse
    false initDetector (mkRace "w/w" ((exEv1, exOpW1), (exEv2, exOpW2)))
    (Or.inl (by decide))

end RD

namespace RD

open HBAux Reach

theorem mkRace_mem_map_filter (rt : String) (q : Cand → Bool) (l : List Cand)
    (p : Cand) :
    (mkRace rt p ∈ (l.filter q).map (mkRace rt) ↔ p ∈ l ∧ q p = true) := by
  constructor
  · intro h
    obtain ⟨p1, hp1, he⟩ := List.mem_map.mp h
    obtain rfl := mkRace_inj he
    exact ⟨(List.mem_filter.mp hp1).1, (List.mem_filter.mp hp1).2⟩
  · rintro ⟨h1, h2⟩
    exact List.mem_map.mpr ⟨p, List.mem_filter.mpr ⟨h1, h2⟩, rfl⟩

theorem mkRace_ww_not_mem_rw (q : Cand → Bool) (l : List Cand) (p : Cand) :
    mkRace "w/w" p ∉ (l.filter q).map (mkRace "r/w") := by
  intro h
  obtain ⟨p1, _, he⟩ := List.mem_map.mp h
  have h2 : "r/w" = "w/w" := by
    have := congrArg Race.rtype he
    simpa [mkRace] using this
  simp at h2

theorem mkRace_rw_not_mem_ww (q : Cand → Bool) (l : List Cand) (p : Cand) :
    mkRace "r/w" p ∉ (l.filter q).map (mkRace "w/w") := by
  intro h
  obtain ⟨p1, _, he⟩ := List.mem_map.mp h
  have h2 : "w/w" = "r/w" := by
    have := congrArg Race.rtype he
    simpa [mkRace] using this
  simp at h2

/-- C2: every candidate pair that survives all filters is appended to
`races_commute` exactly when the commutativity checker returns true and to
`races_harmful` exactly when it returns false; no pair is in both lists; a
harmful pair's events are added to `racing_events_harmful`, and every
surviving pair's events are added to `racing_events` — for both the w/w and
the r/w pass. -/
theorem C2_surviving_pairs_classified_by_checker
    (g : HBGraph) (ev : Option Event) (ww rw : Event → Op → Event → Op → Bool)
    (f : Bool) (st : DetectorState) :
    (∀ p ∈ combinations2 (writeOperationsOf g), raceCond g ev p = true →
      (mkRace "w/w" p ∈ (detect_races g ev ww rw f st).races_commute ↔
        ww p.1.1 p.1.2 p.2.1 p.2.2 = true) ∧
      (mkRace "w/w" p ∈ (detect_races g ev ww rw f st).races_harmful ↔
        ww p.1.1 p.1.2 p.2.1 p.2.2 = false) ∧
      ¬ (mkRace "w/w" p ∈ (detect_races g ev ww rw f st).races_commute ∧
         mkRace "w/w" p ∈ (detect_races g ev ww rw f st).races_harmful) ∧
      (ww p.1.1 p.1.2 p.2.1 p.2.2 = false →
        p.1.1 ∈ (detect_races g ev ww rw f st).racing_events_harmful ∧
        p.2.1 ∈ (detect_races g ev ww rw f st).racing_events_harmful) ∧
      p.1.1 ∈ (detect_races g ev ww rw f st).racing_events ∧
      p.2.1 ∈ (detect_races g ev ww rw f st).racing_events) ∧
    (∀ p ∈ pairProd (readOperationsOf g) (writeOperationsOf g),
      (raceCond g ev p && !(f && !has_common_ancestor g p.1.1 p.2.1)) = true →
      (mkRace "r/w" p ∈ (detect_races g ev ww rw f st).races_commute ↔
        rw p.1.1 p.1.2 p.2.1 p.2.2 = true) ∧
      (mkRace "r/w" p ∈ (detect_races g ev ww rw f st).races_harmful ↔
        rw p.1.1 p.1.2 p.2.1 p.2.2 = false) ∧
      ¬ (mkRace "r/w" p ∈ (detect_races g ev ww rw f st).races_commute ∧
         mkRace "r/w" p ∈ (detect_races g ev ww rw f st).races_harmful) ∧
      (rw p.1.1 p.1.2 p.2.1 p.2.2 = false →
        p.1.1 ∈ (detect_races g ev ww rw f st).racing_events_harmful ∧
        p.2.1 ∈ (detect_races g ev ww rw f st).racing_events_harmful) ∧
      p.1.1 ∈ (detect_races g ev ww rw f st).racing_events ∧
      p.2.1 ∈ (detect_races g ev ww rw f st).racing_events) := by
  constructor
  · intro p hp hcond
    have hcomm : mkRace "w/w" p ∈ (detect_races g ev ww rw f st).races_commute ↔
        ww p.1.1 p.1.2 p.2.1 p.2.2 = true := by
      rw [detect_races_commute_eq]
      constructor
      · intro h
        rcases List.mem_append.mp h with h | h
        · have h1 := ((mkRace_mem_map_filter _ _ _ _).mp h).2
          rw [Bool.and_eq_true] at h1
          exact h1.2
        · exact absurd h (mkRace_ww_not_mem_rw _ _ _)
      · intro hww
        refine List.mem_append.mpr (Or.inl ?_)
        exact (mkRace_mem_map_filter _ _ _ _).mpr
          ⟨hp, by rw [Bool.and_eq_true]; exact ⟨hcond, hww⟩⟩
    have hharm : mkRace "w/w" p ∈ (detect_races g ev ww rw f st).races_harmful ↔
        ww p.1.1 p.1.2 p.2.1 p.2.2 = false := by
      rw [detect_races_harmful_eq]
      constructor
      · intro h
        rcases List.mem_append.mp h with h | h
        · have h1 := ((mkRace_mem_map_filter _ _ _ _).mp h).2
          rw [Bool.and_eq_true] at h1
          simpa using h1.2
        · exact absurd h (mkRace_ww_not_mem_rw _ _ _)
      · intro hww
        refine List.mem_append.mpr (Or.inl ?_)
        exact (mkRace_mem_map_filter _ _ _ _).mpr
          ⟨hp, by rw [Bool.and_eq_true]; exact ⟨hcond, by simp [hww]⟩⟩
    refine ⟨hcomm, hharm, ?_, ?_, ?_, ?_⟩
    · rintro ⟨h1, h2⟩
      rw [hcomm] at h1
      rw [hharm] at h2
      rw [h1] at h2
      exact absurd h2 (by simp)
    · intro hww
      constructor
      · exact (detect_races_racing_harmful_mem g ev ww rw f st _).mpr
          (Or.inl ⟨p, hp, by simp [hcond, hww], Or.inl rfl⟩)
      · exact (detect_races_racing_harmful_mem g ev ww rw f st _).mpr
          (Or.inl ⟨p, hp, by simp [hcond, hww], Or.inr rfl⟩)
    · exact (detect_races_racing_mem g ev ww rw f st _).mpr
        (Or.inl ⟨p, hp, hcond, Or.inl rfl⟩)
    · exact (detect_races_racing_mem g ev ww rw f st _).mpr
        (Or.inl ⟨p, hp, hcond, Or.inr rfl⟩)
  · intro p hp hk
    have hcomm : mkRace "r/w" p ∈ (detect_races g ev ww rw f st).races_commute ↔
        rw p.1.1 p.1.2 p.2.1 p.2.2 = true := by
      rw [detect_races_commute_eq]
      constructor
      · intro h
        rcases List.mem_append.mp h with h | h
        · exact absurd h (mkRace_rw_not_mem_ww _ _ _)
        · have h1 := ((mkRace_mem_map_filter _ _ _ _).mp h).2
          rw [Bool.and_eq_true] at h1
          exact h1.2
      · intro hrw
        refine List.mem_append.mpr (Or.inr ?_)
        exact (mkRace_mem_map_filter _ _ _ _).mpr
          ⟨hp, by rw [Bool.and_eq_true]; exact ⟨hk, hrw⟩⟩
    have hharm : mkRace "r/w" p ∈ (detect_races g ev ww rw f st).races_harmful ↔
        rw p.1.1 p.1.2 p.2.1 p.2.2 = false := by
      rw [detect_races_harmful_eq]
      constructor
      · intro h
        rcases List.mem_append.mp h with h | h
        · exact absurd h (mkRace_rw_not_mem_ww _ _ _)
        · have h1 := ((mkRace_mem_map_filter _ _ _ _).mp h).2
          rw [Bool.and_eq_true] at h1
          simpa using h1.2
      · intro hrw
        refine List.mem_append.mpr (Or.inr ?_)
        exact (mkRace_mem_map_filter _ _ _ _).mpr
          ⟨hp, by rw [Bool.and_eq_true]; exact ⟨hk, by simp [hrw]⟩⟩
    refine ⟨hcomm, hharm, ?_, ?_, ?_, ?_⟩
    · rintro ⟨h1, h2⟩
      rw [hcomm] at h1
      rw [hharm] at h2
      rw [h1] at h2
      exact absurd h2 (by simp)
    · intro hrw
      constructor
      · exact (detect_races_racing_harmful_mem g ev ww rw f st _).mpr
          (Or.inr ⟨p, hp, by rw [Bool.and_eq_true]
                             exact ⟨hk, by simp [hrw]⟩, Or.inl rfl⟩)
      · exact (detect_races_racing_harmful_mem g ev ww rw f st _).mpr
          (Or.inr ⟨p, hp, by rw [Bool.and_eq_true]
                             exact ⟨hk, by simp [hrw]⟩, Or.inr rfl⟩)
    · exact (detect_races_racing_mem g ev ww rw f st _).mpr
        (Or.inr ⟨p, hp, hk, Or.inl rfl⟩)
    · exact (detect_races_racing_mem g ev ww rw f st _).mpr
        (Or.inr ⟨p, hp, hk, Or.inr rfl⟩)

theorem C2_surviving_pairs_classified_by_checker_witness :
    (mkRace "w/w" ((exEv1, exOpW1), (exEv2, exOpW2)) ∈
        (detect_races exGraph none cFalse cFalse false
          initDetector).races_harmful ↔
      cFalse exEv1 exOpW1 exEv2 exOpW2 = false) ∧
    exEv1 ∈ (detect_races exGraph none cFalse cFalse false
      initDetector).racing_events := by
  have h := (C2_surviving_pairs_classified_by_checker exGraph none cFalse
    cFalse false initDetector).1 ((exEv1, exOpW1), (exEv2, exOpW2))
    (by decide) (by decide)
  exact ⟨h.2.1, h.2.2.2.2.1⟩

end RD

namespace Reach

theorem mem_reachList_iff (edges : List (Nat × Nat)) (s t : Nat) :
    t ∈ reachList edges s ↔ Reaches edges s t := by
  rw [← hasPath_iff_reaches]
  simp [hasPath]

end Reach

namespace RD

open HBAux Reach

theorem has_common_ancestor_iff (g : HBGraph) (e o : Event) :
    (has_common_ancestor g e o = true ↔
      ∃ a, Reaches g.edges a e.eid ∧ Reaches g.edges a o.eid) := by
  unfold has_common_ancestor ancestorsWithSelf
  rw [List.any_eq_true]
  constructor
  · rintro ⟨a, ha, hdec⟩
    rw [decide_eq_true_eq, mem_reachList_iff] at hdec
    rw [mem_reachList_iff] at ha
    exact ⟨a, (reaches_swap _ _ _).mp ha, (reaches_swap _ _ _).mp hdec⟩
  · rintro ⟨a, h1, h2⟩
    refine ⟨a, ?_, ?_⟩
    · exact (mem_reachList_iff _ _ _).mpr ((reaches_swap _ _ _).mpr h1)
    · rw [decide_eq_true_eq]
      exact (mem_reachList_iff _ _ _).mpr ((reaches_swap _ _ _).mpr h2)

/-- C6: the common-ancestor filter applies only to r/w pairs and only when
`filter_rw` is true.  With `filter_rw = true`, (a) `total_filtered` counts
exactly the surviving r/w pairs without a common ancestor (and
`has_common_ancestor` means a shared ancestor in the graph, inclusively);
(b) such a filtered pair's race is excluded from both race lists;
(c) `racing_events` only contains events of actually recorded races;
(d) a surviving w/w pair is always classified, for any `filter_rw`; and
(e) with `filter_rw = false` nothing is ever filtered. -/
theorem C6_common_ancestor_filter_rw_only
    (g : HBGraph) (ev : Option Event) (ww rw : Event → Op → Event → Op → Bool)
    (st : DetectorState) :
    ((detect_races g ev ww rw true st).total_filtered =
      (pairProd (readOperationsOf g) (writeOperationsOf g)).countP
        (fun p => raceCond g ev p && !has_common_ancestor g p.1.1 p.2.1)) ∧
    (∀ e o : Event, has_common_ancestor g e o = true ↔
      ∃ a, Reaches g.edges a e.eid ∧ Reaches g.edges a o.eid) ∧
    (∀ p ∈ pairProd (readOperationsOf g) (writeOperationsOf g),
      raceCond g ev p = true → has_common_ancestor g p.1.1 p.2.1 = false →
      mkRace "r/w" p ∉ (detect_races g ev ww rw true st).races_harmful ∧
      mkRace "r/w" p ∉ (detect_races g ev ww rw true st).races_commute) ∧
    (∀ e ∈ (detect_races g ev ww rw true st).racing_events,
      ∃ r, (r ∈ (detect_races g ev ww rw true st).races_harmful ∨
            r ∈ (detect_races g ev ww rw true st).races_commute) ∧
        (e = r.i_event ∨ e = r.k_event)) ∧
    (∀ (f1 : Bool) (st1 : DetectorState),
      ∀ p ∈ combinations2 (writeOperationsOf g), raceCond g ev p = true →
      (mkRace "w/w" p ∈ (detect_races g ev ww rw f1 st1).races_harmful ∨
       mkRace "w/w" p ∈ (detect_races g ev ww rw f1 st1).races_commute)) ∧
    (∀ st1 : DetectorState,
      (detect_races g ev ww rw false st1).total_filtered = 0) := by
  refine ⟨?_, has_common_ancestor_iff g, ?_, ?_, ?_, ?_⟩
  · rw [detect_races_filtered_eq]
    simp only [Bool.true_and]
  · intro p hp hcond hanc
    constructor
    · rw [detect_races_harmful_eq]
      intro h
      rcases List.mem_append.mp h with h | h
      · exact absurd h (mkRace_rw_not_mem_ww _ _ _)
      · have h1 := ((mkRace_mem_map_filter _ _ _ _).mp h).2
        rw [Bool.and_eq_true, Bool.and_eq_true] at h1
        have h2 := h1.1.2
        rw [hanc] at h2
        simp at h2
    · rw [detect_races_commute_eq]
      intro h
      rcases List.mem_append.mp h with h | h
      · exact absurd h (mkRace_rw_not_mem_ww _ _ _)
      · have h1 := ((mkRace_mem_map_filter _ _ _ _).mp h).2
        rw [Bool.and_eq_true, Bool.and_eq_true] at h1
        have h2 := h1.1.2
        rw [hanc] at h2
        simp at h2
  · intro e he
    rw [detect_races_racing_mem] at he
    rcases he with ⟨p, hp, hcond, hor⟩ | ⟨p, hp, hk, hor⟩
    · by_cases hww : ww p.1.1 p.1.2 p.2.1 p.2.2 = true
      · refine ⟨mkRace "w/w" p, Or.inr ?_, ?_⟩
        · rw [detect_races_commute_eq]
          exact List.mem_append.mpr (Or.inl
            ((mkRace_mem_map_filter _ _ _ _).mpr ⟨hp, by simp [hcond, hww]⟩))
        · rcases hor with rfl | rfl
          · exact Or.inl rfl
          · exact Or.inr rfl
      · have hf : ww p.1.1 p.1.2 p.2.1 p.2.2 = false := by
          cases hx : ww p.1.1 p.1.2 p.2.1 p.2.2
          · rfl
          · exact absurd hx hww
        refine ⟨mkRace "w/w" p, Or.inl ?_, ?_⟩
        · rw [detect_races_harmful_eq]
          exact List.mem_append.mpr (Or.inl
            ((mkRace_mem_map_filter _ _ _ _).mpr ⟨hp, by simp [hcond, hf]⟩))
        · rcases hor with rfl | rfl
          · exact Or.inl rfl
          · exact Or.inr rfl
    · by_cases hrw : rw p.1.1 p.1.2 p.2.1 p.2.2 = true
      · refine ⟨mkRace "r/w" p, Or.inr ?_, ?_⟩
        · rw [detect_races_commute_eq]
          refine List.mem_append.mpr (Or.inr
            ((mkRace_mem_map_filter _ _ _ _).mpr ⟨hp, ?_⟩))
          rw [Bool.and_eq_true]
          exact ⟨hk, hrw⟩
        · rcases hor with rfl | rfl
          · exact Or.inl rfl
          · exact Or.inr rfl
      · have hf : rw p.1.1 p.1.2 p.2.1 p.2.2 = false := by
          cases hx : rw p.1.1 p.1.2 p.2.1 p.2.2
          · rfl
          · exact absurd hx hrw
        refine ⟨mkRace "r/w" p, Or.inl ?_, ?_⟩
        · rw [detect_races_harmful_eq]
          refine List.mem_append.mpr (Or.inr
            ((mkRace_mem_map_filter _ _ _ _).mpr ⟨hp, ?_⟩))
          rw [Bool.and_eq_true]
          exact ⟨hk, by simp [hf]⟩
        · rcases hor with rfl | rfl
          · exact Or.inl rfl
          · exact Or.inr rfl
  · intro f1 st1 p hp hcond
    by_cases hww : ww p.1.1 p.1.2 p.2.1 p.2.2 = true
    · right
      rw [detect_races_commute_eq]
      exact List.mem_append.mpr (Or.inl
        ((mkRace_mem_map_filter _ _ _ _).mpr ⟨hp, by simp [hcond, hww]⟩))
    · have hf : ww p.1.1 p.1.2 p.2.1 p.2.2 = false := by
        cases hx : ww p.1.1 p.1.2 p.2.1 p.2.2
        · rfl
        · exact absurd hx hww
      left
      rw [detect_races_harmful_eq]
      exact List.mem_append.mpr (Or.inl
        ((mkRace_mem_map_filter _ _ _ _).mpr ⟨hp, by simp [hcond, hf]⟩))
  · intro st1
    rw [detect_races_filtered_eq]
    simp

theorem C6_common_ancestor_filter_rw_only_witness :
    (detect_races exGraph none cFalse cFalse true initDetector).total_filtered =
      (pairProd (readOperationsOf exGraph) (writeOperationsOf exGraph)).countP
        (fun p =>
          raceCond exGraph none p &&
            !has_common_ancestor exGraph p.1.1 p.2.1) ∧
    (mkRace "r/w" ((exEv3, exOpR1), (exEv1, exOpW1)) ∉
      (detect_races exGraph none cFalse cFalse true initDetector).races_harmful ∧
    mkRace "r/w" ((exEv3, exOpR1), (exEv1, exOpW1)) ∉
      (detect_races exGraph none cFalse cFalse true
        initDetector).races_commute) :=
  ⟨(C6_common_ancestor_filter_rw_only exGraph none cFalse cFalse
      initDetector).1,
   (C6_common_ancestor_filter_rw_only exGraph none cFalse cFalse
      initDetector).2.2.1 ((exEv3, exOpR1), (exEv1, exOpW1)) (by decide)
      (by decide) (by decide)⟩

end RD

namespace RD

open HBAux Reach

/-- C10: after any run of `detect_races` (with or without an `event`
argument), `racing_events_harmful` is contained in `racing_events`, and an
event is in `racing_events_harmful` exactly when it is the `i_event` or
`k_event` of some race in `races_harmful`. -/
theorem C10_racing_events_harmful_matches_harmful_races
    (g : HBGraph) (ev : Option Event) (ww rw : Event → Op → Event → Op → Bool)
    (f : Bool) (st : DetectorState) :
    (∀ e ∈ (detect_races g ev ww rw f st).racing_events_harmful,
      e ∈ (detect_races g ev ww rw f st).racing_events) ∧
    (∀ e : Event,
      e ∈ (detect_races g ev ww rw f st).racing_events_harmful ↔
        ∃ r ∈ (detect_races g ev ww rw f st).races_harmful,
          r.i_event = e ∨ r.k_event = e) := by
  constructor
  · intro e he
    rw [detect_races_racing_harmful_mem] at he
    rw [detect_races_racing_mem]
    rcases he with ⟨p, hp, hc, hor⟩ | ⟨p, hp, hc, hor⟩
    · rw [Bool.and_eq_true] at hc
      exact Or.inl ⟨p, hp, hc.1, hor⟩
    · rw [Bool.and_eq_true] at hc
      exact Or.inr ⟨p, hp, hc.1, hor⟩
  · intro e
    rw [detect_races_racing_harmful_mem]
    constructor
    · rintro (⟨p, hp, hc, hor⟩ | ⟨p, hp, hc, hor⟩)
      · refine ⟨mkRace "w/w" p, ?_, ?_⟩
        · rw [detect_races_harmful_eq]
          exact List.mem_append.mpr (Or.inl
            ((mkRace_mem_map_filter _ _ _ _).mpr ⟨hp, hc⟩))
        · rcases hor with rfl | rfl
          · exact Or.inl rfl
          · exact Or.inr rfl
      · refine ⟨mkRace "r/w" p, ?_, ?_⟩
        · rw [detect_races_harmful_eq]
          exact List.mem_append.mpr (Or.inr
            ((mkRace_mem_map_filter _ _ _ _).mpr ⟨hp, hc⟩))
        · rcases hor with rfl | rfl
          · exact Or.inl rfl
          · exact Or.inr rfl
    · rintro ⟨r, hr, hor⟩
      rw [detect_races_harmful_eq] at hr
      rcases List.mem_append.mp hr with hm | hm
      · obtain ⟨p, hp, rfl⟩ := List.mem_map.mp hm
        left
        refine ⟨p, (List.mem_filter.mp hp).1, (List.mem_filter.mp hp).2, ?_⟩
        rcases hor with h | h
        · exact Or.inl h.symm
        · exact Or.inr h.symm
      · obtain ⟨p, hp, rfl⟩ := List.mem_map.mp hm
        right
        refine ⟨p, (List.mem_filter.mp hp).1, (List.mem_filter.mp hp).2, ?_⟩
        rcases hor with h | h
        · exact Or.inl h.symm
        · exact Or.inr h.symm

theorem C10_racing_events_harmful_matches_harmful_races_witness :
    exEv1 ∈ (detect_races exGraph none cFalse cFalse false
      initDetector).racing_events ∧
    (exEv1 ∈ (detect_races exGraph none cFalse cFalse false
        initDetector).racing_events_harmful ↔
      ∃ r ∈ (detect_races exGraph none cFalse cFalse false
          initDetector).races_harmful,
        r.i_event = exEv1 ∨ r.k_event = exEv1) :=
  ⟨(C10_racing_events_harmful_matches_harmful_races exGraph none cFalse cFalse
      false initDetector).1 exEv1 (by decide),
   (C10_racing_events_harmful_matches_harmful_races exGraph none cFalse cFalse
      false initDetector).2 exEv1⟩

theorem DetectorState.ext_of_fields {a b : DetectorState}
    (h1 : a.read_operations = b.read_operations)
    (h2 : a.write_operations = b.write_operations)
    (h3 : a.races_harmful = b.races_harmful)
    (h4 : a.races_commute = b.races_commute)
    (h5 : a.racing_events = b.racing_events)
    (h6 : a.racing_events_harmful = b.racing_events_harmful)
    (h7 : a.total_operations = b.total_operations)
    (h8 : a.total_harmful = b.total_harmful)
    (h9 : a.total_commute = b.total_commute)
    (h10 : a.total_filtered = b.total_filtered)
    (h11 : a.total_races = b.total_races) : a = b := by
  cases a
  cases b
  simp_all

theorem detect_races_totals (g : HBGraph) (ev : Option Event)
    (ww rw : Event → Op → Event → Op → Bool) (f : Bool) (st : DetectorState) :
    (detect_races g ev ww rw f st).total_operations =
      (detect_races g ev ww rw f st).write_operations.length +
        (detect_races g ev ww rw f st).read_operations.length ∧
    (detect_races g ev ww rw f st).total_harmful =
      (detect_races g ev ww rw f st).races_harmful.length ∧
    (detect_races g ev ww rw f st).total_commute =
      (detect_races g ev ww rw f st).races_commute.length ∧
    (detect_races g ev ww rw f st).total_races =
      (detect_races g ev ww rw f st).races_harmful.length +
        (detect_races g ev ww rw f st).races_commute.length :=
  ⟨rfl, rfl, rfl, rfl⟩

theorem ww_fold_racing_list (g : HBGraph) (ev : Option Event)
    (c : Event → Op → Event → Op → Bool) :
    ∀ (l : List Cand) (st : DetectorState),
    (l.foldl (wwStep g ev c) st).racing_events =
      l.foldl (fun acc p => if raceCond g ev p = true then
        addIfAbsent p.2.1 (addIfAbsent p.1.1 acc) else acc)
        st.racing_events := by
  intro l
  induction l with
  | nil => intro st; rfl
  | cons p t ih =>
    intro st
    rw [List.foldl_cons, List.foldl_cons, ih]
    congr 1
    by_cases h1 : raceCond g ev p = true
    · by_cases h2 : c p.1.1 p.1.2 p.2.1 p.2.2 = true
      · simp [wwStep, h1, h2]
      · simp [wwStep, h1, h2]
    · simp [wwStep, h1]

theorem ww_fold_racing_harmful_list (g : HBGraph) (ev : Option Event)
    (c : Event → Op → Event → Op → Bool) :
    ∀ (l : List Cand) (st : DetectorState),
    (l.foldl (wwStep g ev c) st).racing_events_harmful =
      l.foldl (fun acc p =>
        if (raceCond g ev p && !c p.1.1 p.1.2 p.2.1 p.2.2) = true then
          addIfAbsent p.2.1 (addIfAbsent p.1.1 acc) else acc)
        st.racing_events_harmful := by
  intro l
  induction l with
  | nil => intro st; rfl
  | cons p t ih =>
    intro st
    rw [List.foldl_cons, List.foldl_cons, ih]
    congr 1
    by_cases h1 : raceCond g ev p = true
    · by_cases h2 : c p.1.1 p.1.2 p.2.1 p.2.2 = true
      · simp [wwStep, h1, h2]
      · simp [wwStep, h1, h2]
    · simp [wwStep, h1]

theorem rw_fold_racing_list (g : HBGraph) (ev : Option Event)
    (c : Event → Op → Event → Op → Bool) (f : Bool) :
    ∀ (l : List Cand) (st : DetectorState),
    (l.foldl (rwStep g ev c f) st).racing_events =
      l.foldl (fun acc p =>
        if (raceCond g ev p &&
            !(f && !has_common_ancestor g p.1.1 p.2.1)) = true then
          addIfAbsent p.2.1 (addIfAbsent p.1.1 acc) else acc)
        st.racing_events := by
  intro l
  induction l with
  | nil => intro st; rfl
  | cons p t ih =>
    intro st
    rw [List.foldl_cons, List.foldl_cons, ih]
    congr 1
    by_cases h1 : raceCond g ev p = true
    · by_cases h2 : (f && !has_common_ancestor g p.1.1 p.2.1) = true
      · simp [rwStep, h1, h2]
      · by_cases h3 : c p.1.1 p.1.2 p.2.1 p.2.2 = true
        · simp [rwStep, h1, h2, h3]
        · simp [rwStep, h1, h2, h3]
    · simp [rwStep, h1]

theorem rw_fold_racing_harmful_list (g : HBGraph) (ev : Option Event)
    (c : Event → Op → Event → Op → Bool) (f : Bool) :
    ∀ (l : List Cand) (st : DetectorState),
    (l.foldl (rwStep g ev c f) st).racing_events_harmful =
      l.foldl (fun acc p =>
        if ((raceCond g ev p &&
            !(f && !has_common_ancestor g p.1.1 p.2.1)) &&
              !c p.1.1 p.1.2 p.2.1 p.2.2) = true then
          addIfAbsent p.2.1 (addIfAbsent p.1.1 acc) else acc)
        st.racing_events_harmful := by
  intro l
  induction l with
  | nil => intro st; rfl
  | cons p t ih =>
    intro st
    rw [List.foldl_cons, List.foldl_cons, ih]
    congr 1
    by_cases h1 : raceCond g ev p = true
    · by_cases h2 : (f && !has_common_ancestor g p.1.1 p.2.1) = true
      · simp [rwStep, h1, h2]
      · by_cases h3 : c p.1.1 p.1.2 p.2.1 p.2.2 = true
        · simp [rwStep, h1, h2, h3]
        · simp [rwStep, h1, h2, h3]
    · simp [rwStep, h1]

theorem detect_races_racing_list (g : HBGraph) (ev : Option Event)
    (ww rw : Event → Op → Event → Op → Bool) (f : Bool) (st : DetectorState) :
    (detect_races g ev ww rw f st).racing_events =
      (pairProd (readOperationsOf g) (writeOperationsOf g)).foldl
        (fun acc p =>
          if (raceCond g ev p &&
              !(f && !has_common_ancestor g p.1.1 p.2.1)) = true then
            addIfAbsent p.2.1 (addIfAbsent p.1.1 acc) else acc)
        ((combinations2 (writeOperationsOf g)).foldl
          (fun acc p => if raceCond g ev p = true then
            addIfAbsent p.2.1 (addIfAbsent p.1.1 acc) else acc) []) := by
  unfold detect_races detect_rw_races detect_ww_races
  dsimp only
  rw [rw_fold_racing_list, ww_fold_racing_list,
      (ww_fold_preserved g ev ww _ _).1, (ww_fold_preserved g ev ww _ _).2.1]

theorem detect_races_racing_harmful_list (g : HBGraph) (ev : Option Event)
    (ww rw : Event → Op → Event → Op → Bool) (f : Bool) (st : DetectorState) :
    (detect_races g ev ww rw f st).racing_events_harmful =
      (pairProd (readOperationsOf g) (writeOperationsOf g)).foldl
        (fun acc p =>
          if ((raceCond g ev p &&
              !(f && !has_common_ancestor g p.1.1 p.2.1)) &&
                !rw p.1.1 p.1.2 p.2.1 p.2.2) = true then
            addIfAbsent p.2.1 (addIfAbsent p.1.1 acc) else acc)
        ((combinations2 (writeOperationsOf g)).foldl
          (fun acc p =>
            if (raceCond g ev p && !ww p.1.1 p.1.2 p.2.1 p.2.2) = true then
              addIfAbsent p.2.1 (addIfAbsent p.1.1 acc) else acc) []) := by
  unfold detect_races detect_rw_races detect_ww_races
  dsimp only
  rw [rw_fold_racing_harmful_list, ww_fold_racing_harmful_list,
      (ww_fold_preserved g ev ww _ _).1, (ww_fold_preserved g ev ww _ _).2.1]

theorem detect_races_const (g : HBGraph) (ev : Option Event)
    (ww rw : Event → Op → Event → Op → Bool) (f : Bool)
    (st1 st2 : DetectorState) :
    detect_races g ev ww rw f st1 = detect_races g ev ww rw f st2 := by
  apply DetectorState.ext_of_fields
  · rw [(detect_races_ops_eq g ev ww rw f st1).1,
        (detect_races_ops_eq g ev ww rw f st2).1]
  · rw [(detect_races_ops_eq g ev ww rw f st1).2,
        (detect_races_ops_eq g ev ww rw f st2).2]
  · rw [detect_races_harmful_eq, detect_races_harmful_eq]
  · rw [detect_races_commute_eq, detect_races_commute_eq]
  · rw [detect_races_racing_list, detect_races_racing_list]
  · rw [detect_races_racing_harmful_list, detect_races_racing_harmful_list]
  · rw [(detect_races_totals g ev ww rw f st1).1,
        (detect_races_totals g ev ww rw f st2).1,
        (detect_races_ops_eq g ev ww rw f st1).1,
        (detect_races_ops_eq g ev ww rw f st2).1,
        (detect_races_ops_eq g ev ww rw f st1).2,
        (detect_races_ops_eq g ev ww rw f st2).2]
  · rw [(detect_races_totals g ev ww rw f st1).2.1,
        (detect_races_totals g ev ww rw f st2).2.1,
        detect_races_harmful_eq, detect_races_harmful_eq]
  · rw [(detect_races_totals g ev ww rw f st1).2.2.1,
        (detect_races_totals g ev ww rw f st2).2.2.1,
        detect_races_commute_eq, detect_races_commute_eq]
  · rw [detect_races_filtered_eq, detect_races_filtered_eq]
  · rw [(detect_races_totals g ev ww rw f st1).2.2.2,
        (detect_races_totals g ev ww rw f st2).2.2.2,
        detect_races_harmful_eq, detect_races_harmful_eq,
        detect_races_commute_eq, detect_races_commute_eq]

/-- C7: `detect_races` is idempotent — running it a second time with the same
event argument on the same graph (and the same checker and `filter_rw`
configuration) reproduces exactly the state of the first run, including
`read_operations`, `write_operations`, both race lists, both racing-event
sets and all totals. -/
theorem C7_detect_races_idempotent (g : HBGraph) (ev : Option Event)
    (ww rw : Event → Op → Event → Op → Bool) (f : Bool) (st : DetectorState) :
    detect_races g ev ww rw f (detect_races g ev ww rw f st) =
      detect_races g ev ww rw f st :=
  detect_races_const g ev ww rw f _ st

end RD

namespace HB

open HBAux

/-- C9: a flow-table operation event (read, write or entry expiry) arriving
for a dpid with no started handle event is logged and skipped: the state is
left completely unchanged (no handle's operations list is touched, nothing
is emitted) and the handler returns without raising. -/
theorem C9_operation_without_started_handle_is_skipped
    (st : LoggerState) (dpid : Nat)
    (h : alook st.started_switch_event dpid = none) :
    handle_switch_table_read st dpid = (st, true) ∧
    handle_switch_table_write st dpid = (st, true) ∧
    handle_switch_table_entry_expiry st dpid = (st, true) := by
  unfold handle_switch_table_read handle_switch_table_write
    handle_switch_table_entry_expiry add_operation_to_switch_event
  refine ⟨?_, ?_, ?_⟩ <;> simp [h]

theorem C9_operation_without_started_handle_is_skipped_witness :
    handle_switch_table_read initLogger 1 = (initLogger, true) ∧
    handle_switch_table_write initLogger 1 = (initLogger, true) ∧
    handle_switch_table_entry_expiry initLogger 1 = (initLogger, true) :=
  C9_operation_without_started_handle_is_skipped initLogger 1 rfl

theorem find_in_ok (st : LoggerState) (swid b64 : Nat)
    (hcons : MapsConsistent st) :
    (find_controller_packet_in st swid b64).2.2 = true := by
  unfold find_controller_packet_in
  cases hm : alook st.controller_msgin_to_mid_out (swid, b64) with
  | some m => rfl
  | none =>
    cases hs : alook st.swid_to_dpid swid with
    | some dpid =>
      dsimp only
      rw [if_pos (hcons swid dpid hs)]
      cases findFirstMatch b64 (agetD st.unmatched_HbMessageSend dpid []) with
      | some p =>
        obtain ⟨m, lst⟩ := p
        rfl
      | none => rfl
    | none =>
      cases scanUnmatched st.dpid_to_swid b64 st.unmatched_HbMessageSend with
      | some p =>
        obtain ⟨m, dk, um⟩ := p
        rfl
      | none => rfl

/-- C4: processing a `MessageIn` controller line aborts with the fatal
assertion exactly when `find_controller_packet_in` resolves no outbound
tuple; when it resolves `mid_out`, the `(swid, b64msg) -> mid_out` mapping is
recorded (overwriting any older entry for the key) and the handler returns
normally.  The hypothesis is the swid/dpid map consistency that the logger
maintains (it rules out the internal consistency assert of the lookup). -/
theorem C4_message_in_fatal_iff_unmatched
    (st : LoggerState) (swid b64 : Nat) (hcons : MapsConsistent st) :
    ((controller_ack_in st swid b64).2 = false ↔
      (find_controller_packet_in st swid b64).1 = none) ∧
    (∀ m : Nat, (find_controller_packet_in st swid b64).1 = some m →
      (controller_ack_in st swid b64).2 = true ∧
      (controller_ack_in st swid b64).1 =
        { (find_controller_packet_in st swid b64).2.1 with
            controller_msgin_to_mid_out :=
              aupd (find_controller_packet_in st swid b64).2.1.controller_msgin_to_mid_out
                (swid, b64) m } ∧
      alook (controller_ack_in st swid b64).1.controller_msgin_to_mid_out
        (swid, b64) = some m) := by
  have hok := find_in_ok st swid b64 hcons
  rcases hfind : find_controller_packet_in st swid b64 with ⟨mo, st1, okf⟩
  rw [hfind] at hok
  simp only at hok
  subst hok
  unfold controller_ack_in
  rw [hfind]
  cases mo with
  | none => simp
  | some m =>
    constructor
    · simp
    · intro m1 hm1
      simp only [Option.some.injEq] at hm1
      subst hm1
      exact ⟨rfl, rfl, alook_aupd_self _ _ _⟩

theorem C4_message_in_fatal_iff_unmatched_witness :
    MapsConsistent exAckSt ∧
    (controller_ack_in exAckSt 2 9).2 = true ∧
    alook (controller_ack_in exAckSt 2 9).1.controller_msgin_to_mid_out
      (2, 9) = some 5 := by
  have hcons : MapsConsistent exAckSt := by
    intro s d hx
    simp [exAckSt, alook] at hx
  have h := C4_message_in_fatal_iff_unmatched exAckSt 2 9 hcons
  have h2 := h.2 5 (by decide)
  exact ⟨hcons, h2.1, h2.2.2⟩

/-- C3: the retry of a buffered `MessageOut` line is broken in the source.
The line is buffered correctly, but on the matching `MessageHandleBegin` the
code calls `self.find_controller_packet_in(self, lin_swid, lin_b64msg)` with
`self` as an extra positional argument, raising `TypeError` after having
removed the buffered line: the handler aborts, no `HbControllerHandle` /
`HbControllerSend` pair is ever emitted, and the line is lost.  This theorem
evaluates the model at a concrete failing run: after `MessageSend`,
`MessageOut` (buffered), `MessageHandleBegin` (matching), the final step
reports failure, the buffered line is gone, the trace gained nothing and no
controller edge exists in it. -/
theorem C3_buffered_msgout_retry_raises_typeerror :
    (runLogger [TraceInput.switchMs 1 ⟨10, 100⟩ 0,
        TraceInput.controllerMsgOut 5 100 6 200]).unmatched_lines_controller_msgout =
      [(5, 100, 6, 200)] ∧
    (stepInput (runLogger [TraceInput.switchMs 1 ⟨10, 100⟩ 0,
        TraceInput.controllerMsgOut 5 100 6 200])
      (TraceInput.switchMhBegin 2 ⟨20, 200⟩ 0)).2 = false ∧
    (runLogger [TraceInput.switchMs 1 ⟨10, 100⟩ 0,
        TraceInput.controllerMsgOut 5 100 6 200,
        TraceInput.switchMhBegin 2 ⟨20, 200⟩ 0]).unmatched_lines_controller_msgout =
      [] ∧
    (runLogger [TraceInput.switchMs 1 ⟨10, 100⟩ 0,
        TraceInput.controllerMsgOut 5 100 6 200,
        TraceInput.switchMhBegin 2 ⟨20, 200⟩ 0]).trace =
      (runLogger [TraceInput.switchMs 1 ⟨10, 100⟩ 0,
        TraceInput.controllerMsgOut 5 100 6 200]).trace ∧
    (runLogger [TraceInput.switchMs 1 ⟨10, 100⟩ 0,
        TraceInput.controllerMsgOut 5 100 6 200,
        TraceInput.switchMhBegin 2 ⟨20, 200⟩ 0]).trace.all
      (fun e => !isControllerEdge e) = true := by
  refine ⟨by decide, by decide, by decide, by decide, by decide⟩

end HB

namespace HBAux

theorem aer_aupd_self {α β : Type} [DecidableEq α] (l : List (α × β)) (k : α)
    (v : β) : aer (aupd l k v) k = aer l k := by
  induction l with
  | nil => simp [aupd, aer]
  | cons p t ih =>
    by_cases hp : p.1 = k
    · simp only [aupd, if_pos hp]
      rw [aer_cons, aer_cons, if_pos rfl, if_pos hp]
    · simp only [aupd, if_neg hp]
      rw [aer_cons, aer_cons, if_neg hp, if_neg hp, ih]

end HBAux

namespace HB

open HBAux

theorem swRun_append (st : LoggerState) (l1 l2 : List SwInput) :
    swRun st (l1 ++ l2) = swRun (swRun st l1) l2 :=
  List.foldl_append _ _ _ _

theorem swRun_cons (st : LoggerState) (i : SwInput) (l : List SwInput) :
    swRun st (i :: l) = swRun (swStep st i) l := rfl

theorem swRun_nil (st : LoggerState) : swRun st [] = st := rfl

theorem swStep_succ (st : LoggerState) (ev : Emitted)
    (mid_in pid_in : Option Nat) :
    swStep st (SwInput.succ ev mid_in pid_in) =
      add_successor_to_switch_event st ev mid_in pid_in := rfl

theorem swStep_start (st : LoggerState) (ev : Handle) :
    swStep st (SwInput.start ev) = (start_switch_event st ev.dpid ev).1 := rfl

theorem swStep_finish (st : LoggerState) (dpid : Nat) :
    swStep st (SwInput.finish dpid) = (finish_switch_event st dpid).1 := rfl

theorem add_successor_not_started (st : LoggerState) (ev : Emitted)
    (mid_in pid_in : Option Nat)
    (h : alook st.started_switch_event ev.dpid = none) :
    add_successor_to_switch_event st ev mid_in pid_in =
      { st with trace := st.trace ++ [ev] } := by
  unfold add_successor_to_switch_event
  rw [h]

theorem add_successor_started (st : LoggerState) (ev : Emitted)
    (mid_in pid_in : Option Nat) (h : Handle)
    (hst : alook st.started_switch_event ev.dpid = some h) :
    add_successor_to_switch_event st ev mid_in pid_in =
      { st with
          started_switch_event := aupd st.started_switch_event ev.dpid
            (linkSuccessors h [(ev, mid_in, pid_in)]),
          new_switch_events := aupd st.new_switch_events ev.dpid
            (agetD st.new_switch_events ev.dpid [] ++ [ev]) } := by
  unfold add_successor_to_switch_event
  rw [hst]
  cases mid_in <;> cases pid_in <;> rfl

theorem finish_started (st : LoggerState) (dpid : Nat) (h : Handle)
    (hst : alook st.started_switch_event dpid = some h) :
    finish_switch_event st dpid =
      ({ st with
          trace := st.trace ++ [Emitted.handle h] ++
            agetD st.new_switch_events dpid [],
          started_switch_event := aer st.started_switch_event dpid,
          new_switch_events := aer st.new_switch_events dpid }, true) := by
  unfold finish_switch_event
  rw [hst]

theorem start_not_started (st : LoggerState) (ev : Handle)
    (hst : alook st.started_switch_event ev.dpid = none) :
    start_switch_event st ev.dpid ev =
      ({ st with
          trace := st.trace ++ agetD st.new_switch_events ev.dpid [],
          new_switch_events := aer st.new_switch_events ev.dpid,
          started_switch_event := aupd st.started_switch_event ev.dpid ev },
       true) := by
  unfold start_switch_event
  dsimp only
  rw [hst]
  rfl

theorem swRun_succ_unstarted (dpid : Nat) (S0 : List Successor) :
    ∀ st : LoggerState, alook st.started_switch_event dpid = none →
    (∀ s ∈ S0, (s : Successor).1.dpid = dpid) →
    swRun st (S0.map (fun s => SwInput.succ s.1 s.2.1 s.2.2)) =
      { st with trace := st.trace ++ S0.map (fun s => s.1) } := by
  induction S0 with
  | nil =>
    intro st _ _
    simp [swRun]
  | cons s t ih =>
    intro st hstart hS0
    have hd : s.1.dpid = dpid := hS0 s (List.mem_cons_self s t)
    rw [List.map_cons, swRun_cons, swStep_succ,
        add_successor_not_started st s.1 s.2.1 s.2.2 (by rw [hd]; exact hstart)]
    rw [ih { st with trace := st.trace ++ [s.1] } hstart
        (fun x hx => hS0 x (List.mem_cons_of_mem s hx))]
    simp

theorem swRun_succ_started_finish (dpid : Nat) (S1 : List Successor) :
    ∀ (st : LoggerState) (h : Handle),
    alook st.started_switch_event dpid = some h →
    (∀ s ∈ S1, (s : Successor).1.dpid = dpid) →
    swRun st (S1.map (fun s => SwInput.succ s.1 s.2.1 s.2.2) ++
        [SwInput.finish dpid]) =
      { st with
          trace := st.trace ++ [Emitted.handle (linkSuccessors h S1)] ++
            agetD st.new_switch_events dpid [] ++ S1.map (fun s => s.1),
          started_switch_event := aer st.started_switch_event dpid,
          new_switch_events := aer st.new_switch_events dpid } := by
  induction S1 with
  | nil =>
    intro st h hstart _
    rw [List.map_nil, List.nil_append, swRun_cons, swStep_finish,
        finish_started st dpid h hstart]
    rw [swRun_nil]
    simp [linkSuccessors]
  | cons s t ih =>
    intro st h hstart hS1
    have hd : s.1.dpid = dpid := hS1 s (List.mem_cons_self s t)
    rw [List.map_cons, List.cons_append, swRun_cons, swStep_succ,
        add_successor_started st s.1 s.2.1 s.2.2 h (by rw [hd]; exact hstart)]
    rw [hd]
    rw [ih { st with
          started_switch_event := aupd st.started_switch_event dpid
            (linkSuccessors h [(s.1, s.2.1, s.2.2)]),
          new_switch_events := aupd st.new_switch_events dpid
            (agetD st.new_switch_events dpid [] ++ [s.1]) }
        (linkSuccessors h [(s.1, s.2.1, s.2.2)])
        (by dsimp only; rw [alook_aupd_self])
        (fun x hx => hS1 x (List.mem_cons_of_mem s hx))]
    have hq : agetD (aupd st.new_switch_events dpid
        (agetD st.new_switch_events dpid [] ++ [s.1])) dpid [] =
        agetD st.new_switch_events dpid [] ++ [s.1] := by
      unfold agetD
      rw [alook_aupd_self]
      rfl
    rw [hq, aer_aupd_self, aer_aupd_self]
    have hlink : linkSuccessors (linkSuccessors h [(s.1, s.2.1, s.2.2)]) t =
        linkSuccessors h (s :: t) := rfl
    rw [hlink]
    simp

/-- C5: the emission order around a switch handle.  Successor events that
arrive while no handle is started for the dpid are written out at once (i),
then — once the handle started and finished — any earlier pending queue is
flushed, the handle itself is emitted (ii), then all successors queued during
the handle follow in FIFO arrival order (iii); the emitted handle carries the
`mid_out`/`pid_out` links accumulated from its queued successors. -/
theorem C5_finish_emits_handle_then_fifo_successors
    (st : LoggerState) (dpid : Nat) (H : Handle) (S0 S1 : List Successor)
    (hstart : alook st.started_switch_event dpid = none)
    (hdpid : H.dpid = dpid)
    (hS0 : ∀ s ∈ S0, (s : Successor).1.dpid = dpid)
    (hS1 : ∀ s ∈ S1, (s : Successor).1.dpid = dpid) :
    (swRun st (S0.map (fun s => SwInput.succ s.1 s.2.1 s.2.2) ++
        SwInput.start H ::
          (S1.map (fun s => SwInput.succ s.1 s.2.1 s.2.2) ++
            [SwInput.finish dpid]))).trace =
      st.trace ++ S0.map (fun s => s.1) ++
        agetD st.new_switch_events dpid [] ++
        [Emitted.handle (linkSuccessors H S1)] ++ S1.map (fun s => s.1) := by
  rw [swRun_append, swRun_succ_unstarted dpid S0 st hstart hS0, swRun_cons,
      swStep_start]
  rw [start_not_started { st with trace := st.trace ++ S0.map (fun s => s.1) }
      H (by dsimp only; rw [hdpid]; exact hstart)]
  dsimp only
  rw [hdpid]
  rw [swRun_succ_started_finish dpid S1
      { st with
          trace := st.trace ++ S0.map (fun s => s.1) ++
            agetD st.new_switch_events dpid [],
          new_switch_events := aer st.new_switch_events dpid,
          started_switch_event := aupd st.started_switch_event dpid H }
      H (by dsimp only; rw [alook_aupd_self]) hS1]
  dsimp only
  have hq : agetD (aer st.new_switch_events dpid) dpid [] = [] := by
    unfold agetD
    rw [alook_aer_self]
    rfl
  rw [hq]
  simp

end HB

namespace HB

open HBAux

theorem countBufPut_append_op (ops : List TraceOp) (op : TraceOp) :
    countBufPut (ops ++ [op]) =
      countBufPut ops + (if op.type = "TraceSwitchBufferPut" then 1 else 0) := by
  unfold countBufPut
  rw [List.countP_append, List.countP_cons, List.countP_nil]
  by_cases hop : op.type = "TraceSwitchBufferPut" <;> simp [hop]

theorem queue_ok (st : LoggerState) (hok : StateOk st) (dpid : Nat) :
    ∀ e ∈ agetD st.new_switch_events dpid [], EmittedOk e := by
  intro e he
  unfold agetD at he
  cases hq : alook st.new_switch_events dpid with
  | none =>
    rw [hq] at he
    simp at he
  | some q =>
    rw [hq] at he
    exact hok.2.2 (dpid, q) (alook_mem hq) e he

theorem stateOk_of_frame (st st' : LoggerState) (hok : StateOk st)
    (h1 : st'.trace = st.trace)
    (h2 : st'.started_switch_event = st.started_switch_event)
    (h3 : st'.new_switch_events = st.new_switch_events) : StateOk st' := by
  refine ⟨?_, ?_, ?_⟩
  · intro e he
    rw [h1] at he
    exact hok.1 e he
  · intro p hp
    rw [h2] at hp
    exact hok.2.1 p hp
  · intro p hp
    rw [h3] at hp
    exact hok.2.2 p hp

theorem handleOk_link (h : Handle) (s : Successor) (hh : HandleOk h) :
    HandleOk (linkSuccessors h [s]) := by
  obtain ⟨ev, mi, pi⟩ := s
  intro hkind
  cases mi with
  | none =>
    cases pi with
    | none => exact hh hkind
    | some p =>
      have h2 := hh hkind
      show countBufPut h.operations ≤ (h.pid_out ++ [p]).length
      rw [List.length_append]
      omega
  | some m =>
    cases pi with
    | none => exact hh hkind
    | some p =>
      have h2 := hh hkind
      show countBufPut h.operations ≤ (h.pid_out ++ [p]).length
      rw [List.length_append]
      omega

theorem add_operation_not_started (st : LoggerState) (op : TraceOp)
    (h : alook st.started_switch_event op.dpid = none) :
    add_operation_to_switch_event st op = st := by
  unfold add_operation_to_switch_event
  rw [h]

theorem add_operation_started (st : LoggerState) (op : TraceOp) (h : Handle)
    (hst : alook st.started_switch_event op.dpid = some h) :
    add_operation_to_switch_event st op =
      { st with started_switch_event := aupd st.started_switch_event op.dpid { h with operations := h.operations ++ [op] } } := by
  unfold add_operation_to_switch_event
  rw [hst]

theorem stateOk_add_operation (st : LoggerState) (op : TraceOp)
    (hok : StateOk st) (hop : op.type ≠ "TraceSwitchBufferPut") :
    StateOk (add_operation_to_switch_event st op) := by
  cases hst : alook st.started_switch_event op.dpid with
  | none =>
    rw [add_operation_not_started st op hst]
    exact hok
  | some h =>
    rw [add_operation_started st op h hst]
    refine ⟨hok.1, ?_, hok.2.2⟩
    intro p hp
    rcases mem_aupd hp with rfl | hp2
    · have hh : HandleOk h := hok.2.1 (op.dpid, h) (alook_mem hst)
      intro hkind
      have h2 := hh hkind
      show countBufPut (h.operations ++ [op]) ≤ h.pid_out.length
      rw [countBufPut_append_op, if_neg hop]
      omega
    · exact hok.2.1 p hp2

theorem stateOk_start_switch (st : LoggerState) (dpid : Nat) (ev : Handle)
    (hok : StateOk st) (hev : HandleOk ev) :
    StateOk (start_switch_event st dpid ev).1 := by
  have h1 : StateOk { st with
      trace := st.trace ++ agetD st.new_switch_events dpid [],
      new_switch_events := aer st.new_switch_events dpid } := by
    refine ⟨?_, hok.2.1, ?_⟩
    · intro e he
      rcases List.mem_append.mp he with he | he
      · exact hok.1 e he
      · exact queue_ok st hok dpid e he
    · intro p hp
      exact hok.2.2 p (mem_aer hp)
  unfold start_switch_event
  dsimp only
  by_cases hc : (alook st.started_switch_event ev.dpid).isSome = true
  · rw [if_pos hc]
    exact h1
  · rw [if_neg hc]
    dsimp only
    refine ⟨h1.1, ?_, h1.2.2⟩
    intro p hp
    rcases mem_aupd hp with rfl | hp2
    · exact hev
    · exact h1.2.1 p hp2

theorem stateOk_finish_switch (st : LoggerState) (dpid : Nat)
    (hok : StateOk st) : StateOk (finish_switch_event st dpid).1 := by
  cases hst : alook st.started_switch_event dpid with
  | none =>
    unfold finish_switch_event
    rw [hst]
    exact hok
  | some h =>
    rw [finish_started st dpid h hst]
    have hh : HandleOk h := hok.2.1 (dpid, h) (alook_mem hst)
    refine ⟨?_, ?_, ?_⟩
    · intro e he
      rcases List.mem_append.mp he with he | he
      · rcases List.mem_append.mp he with he | he
        · exact hok.1 e he
        · simp only [List.mem_singleton] at he
          subst he
          exact hh
      · exact queue_ok st hok dpid e he
    · intro p hp
      exact hok.2.1 p (mem_aer hp)
    · intro p hp
      exact hok.2.2 p (mem_aer hp)

theorem stateOk_add_successor (st : LoggerState) (ev : Emitted)
    (mid_in pid_in : Option Nat) (hok : StateOk st) (hev : EmittedOk ev) :
    StateOk (add_successor_to_switch_event st ev mid_in pid_in) := by
  cases hst : alook st.started_switch_event ev.dpid with
  | none =>
    rw [add_successor_not_started st ev mid_in pid_in hst]
    refine ⟨?_, hok.2.1, hok.2.2⟩
    intro e he
    rcases List.mem_append.mp he with he | he
    · exact hok.1 e he
    · simp only [List.mem_singleton] at he
      subst he
      exact hev
  | some h =>
    rw [add_successor_started st ev mid_in pid_in h hst]
    refine ⟨hok.1, ?_, ?_⟩
    · intro p hp
      rcases mem_aupd hp with rfl | hp2
      · exact handleOk_link h (ev, mid_in, pid_in)
          (hok.2.1 (ev.dpid, h) (alook_mem hst))
      · exact hok.2.1 p hp2
    · intro p hp
      rcases mem_aupd hp with rfl | hp2
      · intro e he
        rcases List.mem_append.mp he with he | he
        · exact queue_ok st hok ev.dpid e he
        · simp only [List.mem_singleton] at he
          subst he
          exact hev
      · exact hok.2.2 p hp2

theorem find_in_frame (st : LoggerState) (swid b64 : Nat) :
    (find_controller_packet_in st swid b64).2.1.trace = st.trace ∧
    (find_controller_packet_in st swid b64).2.1.started_switch_event =
      st.started_switch_event ∧
    (find_controller_packet_in st swid b64).2.1.new_switch_events =
      st.new_switch_events := by
  unfold find_controller_packet_in
  cases alook st.controller_msgin_to_mid_out (swid, b64) with
  | some m => exact ⟨rfl, rfl, rfl⟩
  | none =>
    cases alook st.swid_to_dpid swid with
    | some dpid =>
      dsimp only
      by_cases hc : alook st.dpid_to_swid dpid = some swid
      · rw [if_pos hc]
        cases findFirstMatch b64 (agetD st.unmatched_HbMessageSend dpid []) with
        | some p =>
          obtain ⟨m, lst⟩ := p
          exact ⟨rfl, rfl, rfl⟩
        | none => exact ⟨rfl, rfl, rfl⟩
      · rw [if_neg hc]
        exact ⟨rfl, rfl, rfl⟩
    | none =>
      dsimp only
      cases scanUnmatched st.dpid_to_swid b64 st.unmatched_HbMessageSend with
      | some p =>
        obtain ⟨m, dk, um⟩ := p
        exact ⟨rfl, rfl, rfl⟩
      | none => exact ⟨rfl, rfl, rfl⟩

theorem find_out_frame (st : LoggerState) (swid b64 : Nat) :
    (find_controller_packet_out st swid b64).2.1.trace = st.trace ∧
    (find_controller_packet_out st swid b64).2.1.started_switch_event =
      st.started_switch_event ∧
    (find_controller_packet_out st swid b64).2.1.new_switch_events =
      st.new_switch_events := by
  unfold find_controller_packet_out
  cases alook st.swid_to_dpid swid with
  | some dpid =>
    dsimp only
    by_cases hc : alook st.dpid_to_swid dpid = some swid
    · rw [if_pos hc]
      cases findFirstMatch b64 (agetD st.unmatched_HbMessageHandle dpid []) with
      | some p =>
        obtain ⟨m, lst⟩ := p
        exact ⟨rfl, rfl, rfl⟩
      | none => exact ⟨rfl, rfl, rfl⟩
    · rw [if_neg hc]
      exact ⟨rfl, rfl, rfl⟩
  | none =>
    dsimp only
    cases scanUnmatched st.dpid_to_swid b64 st.unmatched_HbMessageHandle with
    | some p =>
      obtain ⟨m, dk, um⟩ := p
      exact ⟨rfl, rfl, rfl⟩
    | none => exact ⟨rfl, rfl, rfl⟩

theorem match_unmatched_frame (st : LoggerState) (m d b : Nat) :
    (match_unmatched_controller_msgout st m d b).2.1.trace = st.trace ∧
    (match_unmatched_controller_msgout st m d b).2.1.started_switch_event =
      st.started_switch_event ∧
    (match_unmatched_controller_msgout st m d b).2.1.new_switch_events =
      st.new_switch_events := by
  unfold match_unmatched_controller_msgout
  cases alook st.dpid_to_swid d with
  | some swid =>
    dsimp only
    by_cases hc : alook st.swid_to_dpid swid = some d
    · rw [if_pos hc]
      cases lastMatchingLine b st.unmatched_lines_controller_msgout with
      | none => exact ⟨rfl, rfl, rfl⟩
      | some l => exact ⟨rfl, rfl, rfl⟩
    · rw [if_neg hc]
      exact ⟨rfl, rfl, rfl⟩
  | none =>
    dsimp only
    cases lastMatchingLine b st.unmatched_lines_controller_msgout with
    | none => exact ⟨rfl, rfl, rfl⟩
    | some l => exact ⟨rfl, rfl, rfl⟩

end HB

namespace HB

open HBAux

theorem stateOk_ph_begin (st : LoggerState) (dpid packet in_port : Nat)
    (hok : StateOk st) :
    StateOk (handle_switch_ph_begin st dpid packet in_port).1 := by
  unfold handle_switch_ph_begin
  rcases hg : getTag st.pids packet with ⟨pid_in, pids1⟩
  dsimp only
  refine stateOk_start_switch _ dpid _ ?_ ?_
  · exact stateOk_of_frame st _ hok rfl rfl rfl
  · intro _
    show countBufPut [] ≤ ([] : List Nat).length
    simp [countBufPut]

theorem stateOk_mh_begin (st : LoggerState) (dpid : Nat) (msg : Msg)
    (msg_type : Nat) (hok : StateOk st) :
    StateOk (handle_switch_mh_begin st dpid msg msg_type).1 := by
  unfold handle_switch_mh_begin
  rcases hg : getTag st.mids msg.oid with ⟨mid_in, mids1⟩
  dsimp only
  rcases hs : start_switch_event { st with mids := mids1 } dpid
      ⟨.messageHandle, dpid, none, mid_in, 0, msg, msg_type, 0, [], [], []⟩
    with ⟨st1, ok1⟩
  have hok1 : StateOk st1 := by
    have h0 := stateOk_start_switch { st with mids := mids1 } dpid
      ⟨.messageHandle, dpid, none, mid_in, 0, msg, msg_type, 0, [], [], []⟩
      (stateOk_of_frame st _ hok rfl rfl rfl)
      (by intro hk; simp at hk)
    rw [hs] at h0
    exact h0
  cases ok1 with
  | false => exact hok1
  | true =>
    dsimp only
    rcases hm : match_unmatched_controller_msgout st1 mid_in dpid msg.content
      with ⟨matched, st2, ok2⟩
    have hfr := match_unmatched_frame st1 mid_in dpid msg.content
    rw [hm] at hfr
    have hok2 : StateOk st2 :=
      stateOk_of_frame st1 st2 hok1 hfr.1 hfr.2.1 hfr.2.2
    cases ok2 with
    | false =>
      cases matched with
      | true => exact hok2
      | false => exact hok2
    | true =>
      cases matched with
      | true => exact hok2
      | false => exact stateOk_of_frame st2 _ hok2 rfl rfl rfl

theorem stateOk_ms (st : LoggerState) (dpid : Nat) (msg : Msg)
    (msg_type : Nat) (hok : StateOk st) :
    StateOk (handle_switch_ms st dpid msg msg_type).1 := by
  unfold handle_switch_ms
  rcases h1 : newTag st.mids msg.oid with ⟨mid_in, mids1⟩
  dsimp only
  rcases h2 : newTag mids1 msg.oid with ⟨mid_out, mids2⟩
  dsimp only
  have hAdd := stateOk_add_successor
    { st with mids := removeObj mids2 msg.oid }
    (Emitted.messageSend mid_in mid_out msg_type dpid msg) (some mid_in) none
    (stateOk_of_frame st _ hok rfl rfl rfl) trivial
  exact stateOk_of_frame _ _ hAdd rfl rfl rfl

theorem stateOk_ps (st : LoggerState) (dpid packet out_port : Nat)
    (hok : StateOk st) :
    StateOk (handle_switch_ps st dpid packet out_port).1 := by
  unfold handle_switch_ps
  rcases h1 : newTag st.pids packet with ⟨pid_in, pids1⟩
  dsimp only
  rcases h2 : newTag pids1 packet with ⟨pid_out, pids2⟩
  dsimp only
  exact stateOk_add_successor { st with pids := pids2 }
    (Emitted.packetSend pid_in pid_out dpid packet out_port) none (some pid_in)
    (stateOk_of_frame st _ hok rfl rfl rfl) trivial

theorem stateOk_buf_put (st : LoggerState) (dpid packet : Nat)
    (hok : StateOk st) :
    StateOk (handle_switch_buf_put st dpid packet).1 := by
  unfold handle_switch_buf_put
  dsimp only
  cases hst : alook st.started_switch_event dpid with
  | none =>
    dsimp only
    rw [add_operation_not_started st _ hst]
    exact hok
  | some h =>
    dsimp only
    by_cases hk : h.kind = HandleKind.packetHandle
    · rw [if_pos hk]
      rcases hg : getTag st.pids packet with ⟨t, pids1⟩
      dsimp only
      by_cases ht : some t = h.pid_in
      · rw [if_pos ht]
        dsimp only
        rw [add_operation_started _ _
          { h with pid_out := h.pid_out ++ [(newTag pids1 packet).1] }
          (by dsimp only; rw [alook_aupd_self])]
        have hh : HandleOk h := hok.2.1 (dpid, h) (alook_mem hst)
        have h2 := hh hk
        refine ⟨hok.1, ?_, hok.2.2⟩
        intro p hp
        rcases mem_aupd hp with rfl | hp2
        · intro _
          show countBufPut (h.operations ++
              [⟨"TraceSwitchBufferPut", dpid, packet⟩]) ≤
            (h.pid_out ++ [(newTag pids1 packet).1]).length
          rw [countBufPut_append_op, List.length_append]
          simp only [if_pos rfl]
          simp
          omega
        · rcases mem_aupd hp2 with rfl | hp3
          · intro _
            show countBufPut h.operations ≤
              (h.pid_out ++ [(newTag pids1 packet).1]).length
            rw [List.length_append]
            omega
          · exact hok.2.1 p hp3
      · rw [if_neg ht]
        exact stateOk_of_frame st _ hok rfl rfl rfl
    · rw [if_neg hk]
      exact hok

theorem stateOk_buf_get (st : LoggerState) (dpid packet : Nat)
    (hok : StateOk st) :
    StateOk (handle_switch_buf_get st dpid packet).1 := by
  unfold handle_switch_buf_get
  dsimp only
  cases hst : alook st.started_switch_event dpid with
  | none =>
    dsimp only
    rw [add_operation_not_started st _ hst]
    exact hok
  | some h =>
    dsimp only
    by_cases hk : h.kind = HandleKind.messageHandle
    · rw [if_pos hk]
      rcases hg : getTag st.pids packet with ⟨pid_in, pids1⟩
      dsimp only
      rw [add_operation_started _ _ { h with pid_in := some pid_in }
        (by dsimp only; rw [alook_aupd_self])]
      refine ⟨hok.1, ?_, hok.2.2⟩
      intro p hp
      rcases mem_aupd hp with rfl | hp2
      · intro hkind
        have hkk : h.kind = HandleKind.packetHandle := hkind
        rw [hk] at hkk
        exact absurd hkk (by decide)
      · rcases mem_aupd hp2 with rfl | hp3
        · intro hkind
          have hkk : h.kind = HandleKind.packetHandle := hkind
          rw [hk] at hkk
          exact absurd hkk (by decide)
        · exact hok.2.1 p hp3
    · rw [if_neg hk]
      exact hok

theorem stateOk_pu_begin (st : LoggerState) (dpid packet : Nat)
    (hok : StateOk st) :
    StateOk (handle_switch_pu_begin st dpid packet).1 := by
  unfold handle_switch_pu_begin
  rcases hg : getTag st.pids packet with ⟨tag, pids1⟩
  exact stateOk_of_frame st _ hok rfl rfl rfl

theorem stateOk_pu_end (st : LoggerState) (dpid packet : Nat)
    (hok : StateOk st) :
    StateOk (handle_switch_pu_end st dpid packet).1 := by
  unfold handle_switch_pu_end
  cases alook st.pending_packet_update dpid with
  | none => exact hok
  | some tag => exact stateOk_of_frame st _ hok rfl rfl rfl

theorem stateOk_ack_in (st : LoggerState) (swid b64 : Nat) (hok : StateOk st) :
    StateOk (controller_ack_in st swid b64).1 := by
  unfold controller_ack_in
  rcases hf : find_controller_packet_in st swid b64 with ⟨mo, st1, okf⟩
  have hfr := find_in_frame st swid b64
  rw [hf] at hfr
  have hok1 : StateOk st1 :=
    stateOk_of_frame st st1 hok hfr.1 hfr.2.1 hfr.2.2
  cases okf with
  | false => cases mo <;> exact hok1
  | true =>
    cases mo with
    | none => exact hok1
    | some m => exact stateOk_of_frame st1 _ hok1 rfl rfl rfl

theorem stateOk_ack_out (st : LoggerState) (a b c d : Nat) (hok : StateOk st) :
    StateOk (controller_ack_out st a b c d).1 := by
  unfold controller_ack_out
  rcases hf : find_controller_packet_in st a b with ⟨mo, st1, okf⟩
  have hfr := find_in_frame st a b
  rw [hf] at hfr
  have hok1 : StateOk st1 :=
    stateOk_of_frame st st1 hok hfr.1 hfr.2.1 hfr.2.2
  cases okf with
  | false => cases mo <;> exact hok1
  | true =>
    cases mo with
    | none => exact hok1
    | some mid_out =>
      dsimp only
      rcases hg : find_controller_packet_out st1 c d with ⟨mi, st2, okg⟩
      have hgr := find_out_frame st1 c d
      rw [hg] at hgr
      have hok2 : StateOk st2 :=
        stateOk_of_frame st1 st2 hok1 hgr.1 hgr.2.1 hgr.2.2
      cases okg with
      | false => cases mi <;> exact hok2
      | true =>
        cases mi with
        | none => exact stateOk_of_frame st2 _ hok2 rfl rfl rfl
        | some mid_in =>
          unfold add_controller_hb_edge
          dsimp only
          refine ⟨?_, hok2.2.1, hok2.2.2⟩
          intro e he
          rcases List.mem_append.mp he with he | he
          · exact hok2.1 e he
          · simp only [List.mem_cons, List.mem_singleton] at he
            rcases he with rfl | rfl | h0
            · exact trivial
            · exact trivial
            · exact absurd h0 (List.not_mem_nil e)

theorem stateOk_step (st : LoggerState) (i : TraceInput) (hok : StateOk st) :
    StateOk (stepInput st i).1 := by
  cases i with
  | switchPhBegin d p ip => exact stateOk_ph_begin st d p ip hok
  | switchPhEnd d => exact stateOk_finish_switch st d hok
  | switchMhBegin d m mt => exact stateOk_mh_begin st d m mt hok
  | switchMhEnd d => exact stateOk_finish_switch st d hok
  | switchMs d m mt => exact stateOk_ms st d m mt hok
  | switchPs d p op => exact stateOk_ps st d p op hok
  | switchTableRead d =>
    exact stateOk_add_operation st _ hok (by simp)
  | switchTableWrite d =>
    exact stateOk_add_operation st _ hok (by simp)
  | switchTableEntryExpiry d =>
    exact stateOk_add_operation st _ hok (by simp)
  | switchBufPut d p => exact stateOk_buf_put st d p hok
  | switchBufGet d p => exact stateOk_buf_get st d p hok
  | switchPuBegin d p => exact stateOk_pu_begin st d p hok
  | switchPuEnd d p => exact stateOk_pu_end st d p hok
  | controllerMsgIn s b => exact stateOk_ack_in st s b hok
  | controllerMsgOut a b c d => exact stateOk_ack_out st a b c d hok

theorem stateOk_runFrom (inputs : List TraceInput) :
    ∀ st : LoggerState, StateOk st → StateOk (runFrom st inputs) := by
  induction inputs with
  | nil => intro st hok; exact hok
  | cons i t ih =>
    intro st hok
    exact ih (stepInput st i).1 (stateOk_step st i hok)

theorem stateOk_runLogger (inputs : List TraceInput) :
    StateOk (runLogger inputs) := by
  refine stateOk_runFrom inputs initLogger ⟨?_, ?_, ?_⟩
  · intro e he
    exact absurd he (List.not_mem_nil e)
  · intro p hp
    exact absurd hp (List.not_mem_nil p)
  · intro p hp
    exact absurd hp (List.not_mem_nil p)

end HB

namespace HB

open HBAux

/-- C8: (i) when a `TraceSwitchBufferPut` arrives while a handle is started
for its dpid, the handler succeeds exactly when that handle is an
`HbPacketHandle` whose `pid_in` equals the packet's registry tag (the two
asserts), and on success a freshly generated `pid_out` is appended to the
handle's `pid_out` and the operation to its `operations`; (ii) consequently,
in any run from the initial state, every emitted `HbPacketHandle` whose
operations contain a `BufferPut` has a non-empty `pid_out`. -/
theorem C8_buffer_put_asserts_and_appends_pid_out :
    (∀ (st : LoggerState) (dpid packet : Nat) (h : Handle),
      alook st.started_switch_event dpid = some h →
      (((handle_switch_buf_put st dpid packet).2 = true ↔
        (h.kind = HandleKind.packetHandle ∧
          some (getTag st.pids packet).1 = h.pid_in)) ∧
      ((handle_switch_buf_put st dpid packet).2 = true →
        alook (handle_switch_buf_put st dpid packet).1.started_switch_event
            dpid =
          some { h with
            pid_out := h.pid_out ++ [(getTag st.pids packet).2.next],
            operations := h.operations ++
              [⟨"TraceSwitchBufferPut", dpid, packet⟩] }))) ∧
    (∀ (inputs : List TraceInput) (hh : Handle),
      Emitted.handle hh ∈ (runLogger inputs).trace →
      hh.kind = HandleKind.packetHandle →
      (∃ op ∈ hh.operations, op.type = "TraceSwitchBufferPut") →
      hh.pid_out ≠ []) := by
  constructor
  · intro st dpid packet h hst
    unfold handle_switch_buf_put
    dsimp only
    rw [hst]
    dsimp only
    by_cases hk2 : h.kind = HandleKind.packetHandle
    · rw [if_pos hk2]
      rcases hg : getTag st.pids packet with ⟨t, pids1⟩
      dsimp only
      by_cases ht : some t = h.pid_in
      · rw [if_pos ht]
        dsimp only
        rw [add_operation_started _ _
          { h with pid_out := h.pid_out ++ [(newTag pids1 packet).1] }
          (by dsimp only; rw [alook_aupd_self])]
        constructor
        · constructor
          · intro _
            exact ⟨hk2, ht⟩
          · intro _
            rfl
        · intro _
          dsimp only
          rw [alook_aupd_self]
          rfl
      · rw [if_neg ht]
        constructor
        · constructor
          · intro hfalse
            simp at hfalse
          · rintro ⟨_, ht3⟩
            exact absurd ht3 ht
        · intro hfalse
          simp at hfalse
    · rw [if_neg hk2]
      constructor
      · constructor
        · intro hfalse
          simp at hfalse
        · rintro ⟨hk3, _⟩
          exact absurd hk3 hk2
      · intro hfalse
        simp at hfalse
  · intro inputs hh hmem hkind hop hnil
    have hok := stateOk_runLogger inputs
    have hH : HandleOk hh := hok.1 _ hmem
    have h2 := hH hkind
    rw [hnil] at h2
    have h3 : countBufPut hh.operations = 0 := Nat.le_zero.mp (by simpa using h2)
    unfold countBufPut at h3
    rw [List.countP_eq_zero] at h3
    obtain ⟨op, hopmem, hoptype⟩ := hop
    exact (h3 op hopmem) (by simp [hoptype])

theorem C8_buffer_put_asserts_and_appends_pid_out_witness :
    (((handle_switch_buf_put exBufSt 2 7).2 = true ↔
      (exBufHandle.kind = HandleKind.packetHandle ∧
        some (getTag exBufSt.pids 7).1 = exBufHandle.pid_in)) ∧
    (⟨HandleKind.packetHandle, 2, some 0, 0, 7, ⟨0, 0⟩, 0, 3, [1], [],
        [⟨"TraceSwitchBufferPut", 2, 7⟩]⟩ : Handle).pid_out ≠ []) :=
  ⟨(C8_buffer_put_asserts_and_appends_pid_out.1 exBufSt 2 7 exBufHandle
      (by decide)).1,
   C8_buffer_put_asserts_and_appends_pid_out.2
     [TraceInput.switchPhBegin 2 7 3, TraceInput.switchBufPut 2 7,
      TraceInput.switchPhEnd 2]
     ⟨HandleKind.packetHandle, 2, some 0, 0, 7, ⟨0, 0⟩, 0, 3, [1], [],
      [⟨"TraceSwitchBufferPut", 2, 7⟩]⟩
     (by decide) (by decide) (by decide)⟩

theorem C5_finish_emits_handle_then_fifo_successors_witness :
    (swRun initLogger
      (([((Emitted.packetSend 0 1 1 7 2 : Emitted),
          (none : Option Nat), (some 4 : Option Nat))] : List Successor).map
            (fun s => SwInput.succ s.1 s.2.1 s.2.2) ++
        SwInput.start
          ⟨HandleKind.packetHandle, 1, some 0, 0, 7, ⟨0, 0⟩, 0, 3, [], [], []⟩ ::
          ((([((Emitted.messageSend 2 3 0 1 ⟨9, 9⟩ : Emitted),
              (some 2 : Option Nat), (none : Option Nat))] : List Successor).map
                (fun s => SwInput.succ s.1 s.2.1 s.2.2)) ++
            [SwInput.finish 1]))).trace =
      initLogger.trace ++
        (([((Emitted.packetSend 0 1 1 7 2 : Emitted),
          (none : Option Nat), (some 4 : Option Nat))] : List Successor).map
            (fun s => s.1)) ++
        agetD initLogger.new_switch_events 1 [] ++
        [Emitted.handle (linkSuccessors
          ⟨HandleKind.packetHandle, 1, some 0, 0, 7, ⟨0, 0⟩, 0, 3, [], [], []⟩
          ([((Emitted.messageSend 2 3 0 1 ⟨9, 9⟩ : Emitted),
            (some 2 : Option Nat), (none : Option Nat))] : List Successor))] ++
        (([((Emitted.messageSend 2 3 0 1 ⟨9, 9⟩ : Emitted),
          (some 2 : Option Nat), (none : Option Nat))] : List Successor).map
            (fun s => s.1)) :=
  C5_finish_emits_handle_then_fifo_successors initLogger 1
    ⟨HandleKind.packetHandle, 1, some 0, 0, 7, ⟨0, 0⟩, 0, 3, [], [], []⟩
    ([((Emitted.packetSend 0 1 1 7 2 : Emitted),
      (none : Option Nat), (some 4 : Option Nat))] : List Successor)
    ([((Emitted.messageSend 2 3 0 1 ⟨9, 9⟩ : Emitted),
      (some 2 : Option Nat), (none : Option Nat))] : List Successor)
    rfl rfl (by decide) (by decide)

end HB
